import Mathlib

/-!
EC2 IaaS provider of tsuru: provisioning lifecycle.

A shallow embedding of `iaas/ec2/iaas.go`: the provider client factory
(`createEC2Handler`), the readiness poller (`waitForDnsName`), the two
orchestrators (`CreateMachine`, `DeleteMachine`) and `Clone`.

Conventions of the embedding.

* A Go `error` is its message; `nil` is `none`.
* A `map[string]string` is nil or allocated.  Reading a nil map finds no key;
  writing to it panics.  The in-place update of `params` is returned with the
  result.
* A pointer field of an `ec2.Instance` (`InstanceID`, `State`, `State.Name`,
  `PublicDNSName`) is optional; dereferencing one that is nil panics.
* A call ends in an `Outcome`: it returns, it panics, or the model has run out
  of iterations.
* The collaborators (configuration, user data, the EC2 API, the clock) are
  the fields of `Env`.  Every call to one of them is appended to the log of
  the `World`, and every answer may depend on everything that happened before
  (the `World` at the call).
* `time.Duration` is a signed 64 bit count of nanoseconds; the product
  `time.Duration(maxWaitTime) * time.Second` wraps modulo `2 ^ 64`.
* The loop of `waitForDnsName` is run with fuel; `pollFuel` iterations are
  shown to be more than the loop can ever take.
-/

namespace Tsuru

/-! ## Data model -/

/-- A Go error value, identified with its message. -/
abbrev GoError := String

/-- The entries of an allocated `map[string]string`. -/
abbrev Entries := String → Option String

/-- The statement `m[k] = v` on the entries of an allocated map. -/
def Entries.set (m : Entries) (k v : String) : Entries :=
  fun k' => if k' = k then some v else m k'

/-- A Go value of type `map[string]string`: the nil map, or an allocated one. -/
inductive Params where
  | nil
  | allocated (entries : Entries)

/-- The expression `v, ok := m[k]`: a nil map has no key. -/
def Params.get : Params → String → Option String
  | .nil, _ => none
  | .allocated entries, k => entries k

/-- The statement `m[k] = v`; `none` is the panic of a write to a nil map. -/
def Params.set : Params → String → String → Option Params
  | .nil, _, _ => none
  | .allocated entries, k, v => some (.allocated (entries.set k v))

/-- Modelled from the spec: the struct `iaas.NamedIaaS` is declared outside the
sources read here; it has the two names `NewEC2IaaS` and `Clone` use, the
second being the configuration namespace of the instance. -/
structure NamedIaaS where
  BaseIaaSName : String
  IaaSName : String
  deriving DecidableEq, Repr

/-- Modelled from the spec: the struct `iaas.UserDataIaaS` is declared outside
the sources read here; `NewEC2IaaS` builds it from the `NamedIaaS` it embeds. -/
structure UserDataIaaS where
  NamedIaaS : NamedIaaS
  deriving DecidableEq, Repr

/-- The struct `EC2IaaS`. -/
structure EC2IaaS where
  base : UserDataIaaS
  deriving DecidableEq, Repr

/-- Modelled from the spec: the struct `iaas.Machine` is declared outside the
sources read here; these are the fields of the result record, the ones this
package reads or writes. -/
structure Machine where
  Id : String
  Status : String
  Address : String
  CreationParams : Params

/-- The struct `ec2.InstanceState`; `Name` is a pointer to a string. -/
structure InstanceState where
  Name : Option String
  deriving DecidableEq, Repr

/-- The struct `ec2.Instance`, with the three pointer fields the source reads:
each may be nil. -/
structure Instance where
  InstanceID : Option String
  State : Option InstanceState
  PublicDNSName : Option String
  deriving DecidableEq, Repr

/-- The struct `ec2.Reservation`. -/
structure Reservation where
  Instances : List Instance
  deriving DecidableEq, Repr

/-- The struct `ec2.RunInstancesRequest`, with the fields `CreateMachine` sets. -/
structure RunInstancesRequest where
  EBSOptimized : Bool
  ImageID : String
  InstanceType : String
  UserData : String
  MinCount : Int
  MaxCount : Int
  KeyName : String
  SecurityGroups : List String
  deriving DecidableEq, Repr

/-- The response of `RunInstances` (an `ec2.Reservation`). -/
structure RunInstancesResult where
  Instances : List Instance
  deriving DecidableEq, Repr

/-- The struct `ec2.DescribeInstancesRequest`. -/
structure DescribeInstancesRequest where
  InstanceIDs : List String
  deriving DecidableEq, Repr

/-- The struct `ec2.DescribeInstancesResult`. -/
structure DescribeInstancesResult where
  Reservations : List Reservation
  deriving DecidableEq, Repr

/-- The struct `ec2.TerminateInstancesRequest`. -/
structure TerminateInstancesRequest where
  InstanceIDs : List String
  deriving DecidableEq, Repr

/-- The credentials `aws.DetectCreds` is given. -/
structure Creds where
  keyId : String
  secretKey : String
  securityToken : String
  deriving DecidableEq, Repr

/-- The client `ec2.New` builds: credentials and the region it is bound to. -/
structure EC2 where
  creds : Creds
  region : String
  deriving DecidableEq, Repr

/-- A call made to a collaborator. -/
inductive Event where
  | getConfigString (base : UserDataIaaS) (key : String)
  | readUserData (base : UserDataIaaS)
  | sleep (d : Nat)
  | runInstances (h : EC2) (req : RunInstancesRequest)
  | describeInstances (h : EC2) (req : DescribeInstancesRequest)
  | terminateInstances (h : EC2) (req : TerminateInstancesRequest)
  deriving DecidableEq, Repr

/-- The calls that go to the EC2 API. -/
def Event.isProviderAction : Event → Bool
  | .runInstances _ _ => true
  | .describeInstances _ _ => true
  | .terminateInstances _ _ => true
  | _ => false

/-- The terminate calls. -/
def Event.isTerminate : Event → Bool
  | .terminateInstances _ _ => true
  | _ => false

/-- The describe calls. -/
def Event.isDescribe : Event → Bool
  | .describeInstances _ _ => true
  | _ => false

/-- The client a provider call went through. -/
def Event.client? : Event → Option EC2
  | .runInstances h _ => some h
  | .describeInstances h _ => some h
  | .terminateInstances h _ => some h
  | _ => none

/-- What is outside the program: the clock (nanoseconds) and the calls made
so far, oldest first. -/
structure World where
  clock : Nat
  log : List Event
  deriving DecidableEq, Repr

/-- Appends a call to the log. -/
def World.record (w : World) (e : Event) : World :=
  { w with log := w.log ++ [e] }

/-- The collaborators of the package, taken as parameters.  Each is asked in
the world of the call, so its answer may change from one call to the next.
The clock is an injected one: it moves when the program sleeps. -/
structure Env where
  /-- The method `GetConfigString` of the embedded `iaas.NamedIaaS`: the value
  of a key of the configuration, or the error for a key that is absent. -/
  GetConfigString : UserDataIaaS → World → String → Except GoError String
  /-- The method `ReadUserData` of `iaas.UserDataIaaS`. -/
  ReadUserData : UserDataIaaS → World → Except GoError String
  /-- The EC2 call `RunInstances`. -/
  RunInstances : EC2 → World → RunInstancesRequest → Except GoError RunInstancesResult
  /-- The EC2 call `DescribeInstances`. -/
  DescribeInstances : EC2 → World → DescribeInstancesRequest →
    Except GoError DescribeInstancesResult
  /-- The EC2 call `TerminateInstances`; only its error is looked at. -/
  TerminateInstances : EC2 → World → TerminateInstancesRequest → Option GoError
  /-- By how much a `time.Sleep` overshoots the duration asked for. -/
  oversleep : World → Nat

/-- How a call ends: it returns, it panics, or the model has run out of
iterations. -/
inductive Outcome (α : Type) where
  | returned (a : α)
  | panicked (reason : String)
  | outOfFuel

/-- The panic of dereferencing a nil pointer. -/
def nilDereference : String := "invalid memory address or nil pointer dereference"

/-- The panic of writing to a nil map. -/
def nilMapWrite : String := "assignment to entry in nil map"

/-! ## Time and numbers -/

/-- One `time.Second`, in nanoseconds. -/
def Second : Int := 1000000000

/-- Largest `int64`. -/
def maxInt64 : Int := 9223372036854775807

/-- Smallest `int64`. -/
def minInt64 : Int := -9223372036854775808

/-- Two's complement wrap of an integer into `int64`. -/
def wrapInt64 (x : Int) : Int :=
  (x + 9223372036854775808) % 18446744073709551616 - 9223372036854775808

/-- The value of `time.Now().Sub(t0)`: the difference of the two clock
readings, saturated at the largest `int64`. -/
def elapsed (t0 : Nat) (w : World) : Int :=
  min (((w.clock - t0 : Nat) : Int)) maxInt64

/-- The value of a decimal digit. -/
def digitValue (c : Char) : Nat := c.toNat - 48

/-- The number written by a string of decimal digits read after `n`; `none`
when a character is not a digit. -/
def digitsValue : Nat → List Char → Option Nat
  | n, [] => some n
  | n, c :: cs => if c.isDigit then digitsValue (n * 10 + digitValue c) cs else none

/-- The integer a string writes in base ten: an optional sign and at least
one digit.  `none` is Go's syntax error. -/
def numericValue (s : String) : Option Int :=
  match s.data with
  | [] => none
  | '+' :: cs => if cs.isEmpty then none else (digitsValue 0 cs).map Int.ofNat
  | '-' :: cs => if cs.isEmpty then none else (digitsValue 0 cs).map (fun n => - Int.ofNat n)
  | cs => (digitsValue 0 cs).map Int.ofNat

/-- The value `strconv.Atoi` returns (64 bit `int`), as its documentation
gives it: 0 on a syntax error, the nearest `int64` when the number is out of
range, the number otherwise.  The error is dropped: the source ignores it. -/
def Atoi (s : String) : Int :=
  match numericValue s with
  | none => 0
  | some v => if v > maxInt64 then maxInt64 else if v < minInt64 then minInt64 else v

/-- The value `strconv.ParseBool` returns; false comes with its error, which
the source ignores. -/
def ParseBool (s : String) : Bool :=
  s = "1" || s = "t" || s = "T" || s = "TRUE" || s = "true" || s = "True"

/-- The Go expression `v, _ := f()` on a `(string, error)` result: the zero
value when the call failed. -/
def valueOrZero : Except GoError String → String
  | .ok v => v
  | .error _ => ""

/-! ## The operations of `iaas.go` -/

/-- The constant `defaultRegion`. -/
def defaultRegion : String := "us-east-1"

/-- The interval `500 * time.Millisecond` the poller sleeps for: 500000000
nanoseconds. -/
def pollInterval : Nat := 500000000

/-- The function `NewEC2IaaS`, as the value it allocates. -/
def NewEC2IaaS : EC2IaaS :=
  { base := { NamedIaaS := { BaseIaaSName := "ec2", IaaSName := "" } } }

/-- The call `i.base.GetConfigString(key)`, recorded in the log. -/
def GetConfigString (env : Env) (i : EC2IaaS) (key : String) (w : World) :
    Except GoError String × World :=
  (env.GetConfigString i.base w key, w.record (.getConfigString i.base key))

/-- The call `i.base.ReadUserData()`, recorded in the log. -/
def ReadUserData (env : Env) (i : EC2IaaS) (w : World) : Except GoError String × World :=
  (env.ReadUserData i.base w, w.record (.readUserData i.base))

/-- The call `time.Sleep(d)`: the clock moves on by `d` and by what the
sleep overshoots. -/
def Sleep (env : Env) (d : Nat) (w : World) : World :=
  { clock := w.clock + d + env.oversleep w, log := w.log ++ [.sleep d] }

/-- The function `createEC2Handler`. -/
def createEC2Handler (env : Env) (i : EC2IaaS) (region : String) (w : World) :
    Except GoError EC2 × World :=
  match GetConfigString env i "key-id" w with
  | (.error err, w1) => (.error err, w1)
  | (.ok keyId, w1) =>
    match GetConfigString env i "secret-key" w1 with
    | (.error err, w2) => (.error err, w2)
    | (.ok secretKey, w2) =>
      match GetConfigString env i "security-token" w2 with
      | (securityToken, w3) =>
        (.ok { creds := { keyId := keyId, secretKey := secretKey,
                          securityToken := valueOrZero securityToken },
               region := region }, w3)

/-- The variable `maxWaitTime` of `waitForDnsName` once the zero case has
been replaced: seconds. -/
def maxWaitTime (rawWait : String) : Int :=
  if Atoi rawWait = 0 then 300 else Atoi rawWait

/-- The bound `time.Duration(maxWaitTime) * time.Second` the elapsed time is
compared with: nanoseconds, after the 64 bit product. -/
def timeoutBound (rawWait : String) : Int :=
  wrapInt64 (maxWaitTime rawWait * Second)

/-- The error `fmt.Errorf("ec2: time out waiting for instance %s to start", instId)`. -/
def timeoutError (instId : String) : GoError :=
  "ec2: time out waiting for instance " ++ instId ++ " to start"

/-- The loop condition `instance.PublicDNSName == nil || *instance.PublicDNSName == ""`. -/
def addressMissing (inst : Instance) : Bool :=
  match inst.PublicDNSName with
  | none => true
  | some a => a = ""

/-- What one pass through the loop of `waitForDnsName` ends in: the function
returns, the loop goes round again with the described instance, or the pass
panics. -/
inductive PollStep where
  | done (res : Except GoError Instance) (w : World)
  | again (inst : Instance) (w : World)
  | panicked (reason : String)

/-- One evaluation of the loop condition of `waitForDnsName` followed, when it
holds, by the loop body (lines 49 to 70). -/
def pollStep (env : Env) (i : EC2IaaS) (ec2Handler : EC2) (t0 : Nat) (w : World)
    (inst : Instance) : PollStep :=
  if addressMissing inst then
    match GetConfigString env i "wait-timeout" w with
    | (rawWait, w1) =>
      match inst.InstanceID with
      | none => .panicked nilDereference
      | some instId =>
        if elapsed t0 w1 > timeoutBound (valueOrZero rawWait) then
          .done (.error (timeoutError instId)) w1
        else
          let w2 := Sleep env pollInterval w1
          let req : DescribeInstancesRequest := { InstanceIDs := [instId] }
          let w3 := w2.record (.describeInstances ec2Handler req)
          match env.DescribeInstances ec2Handler w2 req with
          | .error err => .done (.error err) w3
          | .ok resp =>
            match resp.Reservations with
            | [] => .done (.error "No instances returned") w3
            | r :: _ =>
              match r.Instances with
              | [] => .done (.error "No instances returned") w3
              | described :: _ => .again described w3
  else
    .done (.ok inst) w

/-- The loop of `waitForDnsName`, run for at most the given number of
iterations. -/
def waitLoop (env : Env) (i : EC2IaaS) (ec2Handler : EC2) (t0 : Nat) :
    Nat → World → Instance → Outcome (Except GoError Instance × World)
  | 0, _, _ => .outOfFuel
  | fuel + 1, w, inst =>
    match pollStep env i ec2Handler t0 w inst with
    | .done res w1 => .returned (res, w1)
    | .again described w1 => waitLoop env i ec2Handler t0 fuel w1 described
    | .panicked reason => .panicked reason

/-- More iterations than the loop of `waitForDnsName` can take: a sleep
moves the clock by at least `pollInterval`, and no bound reaches `2 ^ 63`
nanoseconds. -/
def pollFuel : Nat := 18446744075

/-- The function `waitForDnsName`. -/
def waitForDnsName (env : Env) (i : EC2IaaS) (ec2Handler : EC2) (inst : Instance)
    (w : World) : Outcome (Except GoError Instance × World) :=
  let t0 := w.clock
  waitLoop env i ec2Handler t0 pollFuel w inst

/-- What a call of `CreateMachine` that returns leaves behind: the two return
values, the caller's `params` map after the call, and the world. -/
structure CreateResult where
  machine : Option Machine
  err : Option GoError
  params : Params
  world : World

/-- The request `CreateMachine` builds (lines 119 to 138). -/
def runRequest (params : Params) (imageId instanceType userData : String) :
    RunInstancesRequest :=
  let optimized := (params.get "ebs-optimized").getD ""
  let ebsOptimized := ParseBool optimized
  let keyName := (params.get "keyName").getD ""
  let options : RunInstancesRequest :=
    { EBSOptimized := ebsOptimized, ImageID := imageId, InstanceType := instanceType,
      UserData := userData, MinCount := 1, MaxCount := 1, KeyName := keyName,
      SecurityGroups := [] }
  match params.get "securityGroup" with
  | some securityGroup => { options with SecurityGroups := [securityGroup] }
  | none => options

/-- The map `params` after lines 107 to 109: the default region is written
into it when it has no region; `none` is the panic of that write on a nil
map. -/
def resolveRegion (params : Params) : Option Params :=
  if (params.get "region").isNone then params.set "region" defaultRegion else some params

/-- The state of `CreateMachine` at line 150, when it gets there: the client,
the first instance of the create response, the `params` map and the world. -/
structure Launched where
  ec2Handler : EC2
  runInst : Instance
  params : Params
  world : World

/-- How lines 107 to 150 of `CreateMachine` end: an early return, line 150
reached, or a panic. -/
inductive Launch where
  | early (r : CreateResult)
  | launched (l : Launched)
  | panicked (reason : String)

/-- Lines 107 to 150 of `CreateMachine`: the region, validation, user data,
the client and the create call. -/
def launchInstance (env : Env) (i : EC2IaaS) (params : Params) (w : World) : Launch :=
  match resolveRegion params with
  | none => .panicked nilMapWrite
  | some params =>
    let region := (params.get "region").getD ""
    match params.get "image" with
    | none => .early ⟨none, some "image param required", params, w⟩
    | some imageId =>
      match params.get "type" with
      | none => .early ⟨none, some "type param required", params, w⟩
      | some instanceType =>
        match ReadUserData env i w with
        | (.error err, w1) => .early ⟨none, some err, params, w1⟩
        | (.ok userData, w1) =>
          let options := runRequest params imageId instanceType userData
          match createEC2Handler env i region w1 with
          | (.error err, w2) => .early ⟨none, some err, params, w2⟩
          | (.ok ec2Handler, w2) =>
            let w3 := w2.record (.runInstances ec2Handler options)
            match env.RunInstances ec2Handler w2 options with
            | .error err => .early ⟨none, some err, params, w3⟩
            | .ok resp =>
              match resp.Instances with
              | [] => .early ⟨none, some "no instance created", params, w3⟩
              | runInst :: _ => .launched ⟨ec2Handler, runInst, params, w3⟩

/-- The value of `*instance.State.Name`, when neither pointer is nil. -/
def Instance.stateName (inst : Instance) : Option String :=
  match inst.State with
  | none => none
  | some state => state.Name

/-- The function `CreateMachine`: `launchInstance`, then lines 151 to 162. -/
def CreateMachine (env : Env) (i : EC2IaaS) (params : Params) (w : World) :
    Outcome CreateResult :=
  match launchInstance env i params w with
  | .panicked reason => .panicked reason
  | .early r => .returned r
  | .launched l =>
    match waitForDnsName env i l.ec2Handler l.runInst l.world with
    | .outOfFuel => .outOfFuel
    | .panicked reason => .panicked reason
    | .returned (.error err, w4) =>
      match l.runInst.InstanceID with
      | none => .panicked nilDereference
      | some instId =>
        let req : TerminateInstancesRequest := { InstanceIDs := [instId] }
        let _ := env.TerminateInstances l.ec2Handler w4 req
        .returned ⟨none, some err, l.params, w4.record (.terminateInstances l.ec2Handler req)⟩
    | .returned (.ok inst, w4) =>
      match inst.InstanceID, inst.stateName, inst.PublicDNSName with
      | some id, some status, some address =>
        .returned ⟨some { Id := id, Status := status, Address := address,
                          CreationParams := .nil }, none, l.params, w4⟩
      | _, _, _ => .panicked nilDereference

/-- The function `DeleteMachine`: the error returned and the world after. -/
def DeleteMachine (env : Env) (i : EC2IaaS) (m : Machine) (w : World) :
    Option GoError × World :=
  match m.CreationParams.get "region" with
  | none => (some "region creation param required", w)
  | some region =>
    match createEC2Handler env i region w with
    | (.error err, w1) => (some err, w1)
    | (.ok ec2Handler, w1) =>
      let req : TerminateInstancesRequest := { InstanceIDs := [m.Id] }
      (env.TerminateInstances ec2Handler w1 req,
       w1.record (.terminateInstances ec2Handler req))

/-- The memory `EC2IaaS` values live in; a pointer `*EC2IaaS` is an index. -/
abbrev Heap := List EC2IaaS

/-- The method `Clone`: the pointer returned and the memory after the call;
`none` when the receiver points at nothing. -/
def Clone (heap : Heap) (i : Nat) (name : String) : Option (Nat × Heap) :=
  match heap[i]? with
  | none => none
  | some v =>
    let clone : EC2IaaS :=
      { v with base := { v.base with NamedIaaS := { v.base.NamedIaaS with IaaSName := name } } }
    some (heap.length, heap ++ [clone])

/-! ## Vocabulary of the statements -/

/-- Calls the readiness poller makes through the client `h`. -/
def Event.isPollEvent (h : EC2) : Event → Bool
  | .getConfigString _ key => key = "wait-timeout"
  | .sleep d => d = pollInterval
  | .describeInstances h' _ => h' = h
  | _ => false

/-- The world in which the poller looks at the clock: the configuration has
just been read. -/
def afterConfig (i : EC2IaaS) (w : World) : World :=
  w.record (.getConfigString i.base "wait-timeout")

/-- The world after one more sleep and describe call for `instId`. -/
def afterDescribe (env : Env) (i : EC2IaaS) (h : EC2) (instId : String) (w : World) : World :=
  (Sleep env pollInterval (afterConfig i w)).record (.describeInstances h ⟨[instId]⟩)

/-- The first instance of a describe response, when there is one. -/
def firstInstance : Except GoError DescribeInstancesResult → Option Instance
  | .ok ⟨⟨described :: _⟩ :: _⟩ => some described
  | _ => none

/-- The world after the three credential lookups of `createEC2Handler`. -/
def afterCreds (i : EC2IaaS) (w : World) : World :=
  ((w.record (.getConfigString i.base "key-id")).record
    (.getConfigString i.base "secret-key")).record (.getConfigString i.base "security-token")

/-- The calls a run has added to the log of the world it started in. -/
def newEvents (before after : World) : List Event :=
  after.log.drop before.log.length

/-- Calls `CreateMachine` makes before the poll: the user-data read, the
credential lookups and the create call through the client `c`. -/
def Event.isLaunchEvent (c : EC2) : Event → Bool
  | .readUserData _ => true
  | .getConfigString _ key => key = "key-id" || key = "secret-key" || key = "security-token"
  | .runInstances h _ => h = c
  | _ => false

/-- The client `createEC2Handler` builds when it is called in the world `w`:
each credential as the configuration gives it at its lookup. -/
def handlerFor (env : Env) (i : EC2IaaS) (region : String) (w : World) : EC2 :=
  { creds :=
      { keyId := valueOrZero (env.GetConfigString i.base w "key-id"),
        secretKey := valueOrZero (env.GetConfigString i.base
          (w.record (.getConfigString i.base "key-id")) "secret-key"),
        securityToken := valueOrZero (env.GetConfigString i.base
          ((w.record (.getConfigString i.base "key-id")).record
            (.getConfigString i.base "secret-key")) "security-token") },
    region := region }

/-- Both required credentials are in the configuration when
`createEC2Handler`, called in the world `w`, looks them up. -/
def credentialsConfigured (env : Env) (i : EC2IaaS) (w : World) : Prop :=
  (∃ keyId, env.GetConfigString i.base w "key-id" = .ok keyId) ∧
  (∃ secretKey, env.GetConfigString i.base (w.record (.getConfigString i.base "key-id"))
    "secret-key" = .ok secretKey)

/-- The entries of an allocated `params` map after lines 107 to 109. -/
def resolveEntries (m : Entries) : Entries :=
  if (m "region").isNone then m.set "region" defaultRegion else m

/-- The region `CreateMachine` resolves for a `params` map. -/
def resolvedRegion (params : Params) : String :=
  (params.get "region").getD defaultRegion

/-- The client `CreateMachine`, called in the world `w`, builds for the create
call: the one for the resolved region, built after the user-data read. -/
def launchClient (env : Env) (i : EC2IaaS) (params : Params) (w : World) : EC2 :=
  handlerFor env i (resolvedRegion params) (w.record (.readUserData i.base))

/-- The bound the poller compares the elapsed time with when it reads the
configuration in the world `w`. -/
def configuredBound (env : Env) (i : EC2IaaS) (w : World) : Int :=
  timeoutBound (valueOrZero (env.GetConfigString i.base w "wait-timeout"))

/-- The number of describe calls in the log. -/
def describeCount (w : World) : Nat :=
  w.log.countP Event.isDescribe

/-- The instance carries an id and a state with a name. -/
def Instance.carriesIdAndState (inst : Instance) : Prop :=
  (∃ id, inst.InstanceID = some id) ∧ (∃ name, inst.stateName = some name)

/-- Every instance the code looks at, the first of a create response and the
first of a describe response, carries an id and a state with a name. -/
def instancesCarryIdAndState (env : Env) : Prop :=
  (∀ h before req insts inst rest, env.RunInstances h before req = .ok insts →
    insts.Instances = inst :: rest → inst.carriesIdAndState) ∧
  (∀ h before req described, firstInstance (env.DescribeInstances h before req) = some described →
    described.carriesIdAndState)

/-- The provider answers every describe call with one instance, of id `id`
and without an address. -/
def neverReady (env : Env) (h : EC2) (id : String) : Prop :=
  ∀ before req, ∃ described,
    env.DescribeInstances h before req = .ok ⟨[⟨[described]⟩]⟩ ∧
    described.InstanceID = some id ∧ addressMissing described = true

/-- What a run of the poller ended in, with the describe calls in the log and
the clock. -/
def pollSummary : Outcome (Except GoError Instance × World) →
    Option (Except GoError Instance × Nat × Nat)
  | .returned (res, w) => some (res, describeCount w, w.clock)
  | _ => none

/-! ## Sample collaborators -/

/-- A configuration with the two credentials, the wait-timeout when `wait` is
given, and nothing else. -/
def sampleConfig (wait : Option String) : UserDataIaaS → World → String → Except GoError String :=
  fun _ _ key =>
    if key = "key-id" then .ok "mykey"
    else if key = "secret-key" then .ok "mysecret"
    else if key = "wait-timeout" then
      match wait with
      | some v => .ok v
      | none => .error "key not found"
    else .error "key not found"

/-- An instance as the test server creates it: pending, with its id. -/
def pendingInstance (id : String) (address : Option String) : Instance :=
  { InstanceID := some id, State := some { Name := some "pending" }, PublicDNSName := address }

/-- A provider that creates `i-1` without an address, never gives it one and
refuses to terminate it, with the wait-timeout `wait` and sleeps that
overshoot by `oversleep`. -/
def neverReadyEnv (wait : String) (oversleep : World → Nat) : Env :=
  { GetConfigString := sampleConfig (some wait),
    ReadUserData := fun _ _ => .ok "",
    RunInstances := fun _ _ _ => .ok ⟨[pendingInstance "i-1" none]⟩,
    DescribeInstances := fun _ _ _ => .ok ⟨[⟨[pendingInstance "i-1" none]⟩]⟩,
    TerminateInstances := fun _ _ _ => some "InvalidInstanceID.NotFound",
    oversleep := oversleep }

/-- The provider of `TestCreateMachineTimeoutError`: the wait-timeout is one
second and sleeps are exact. -/
def stuckEnv : Env := neverReadyEnv "1" (fun _ => 0)

/-- A provider that answers the create call with `created`. -/
def creatingEnv (created : Instance) : Env :=
  { GetConfigString := sampleConfig none,
    ReadUserData := fun _ _ => .ok "",
    RunInstances := fun _ _ _ => .ok ⟨[created]⟩,
    DescribeInstances := fun _ _ _ => .error "not called",
    TerminateInstances := fun _ _ _ => none,
    oversleep := fun _ => 0 }

/-- A provider that creates `i-1` with its address at once. -/
def readyEnv : Env := creatingEnv (pendingInstance "i-1" (some "i-1.testing.invalid"))

/-- The entries of the `params` of `TestCreateMachineDefaultRegion`: an image
and a type. -/
def defaultRegionEntries : Entries :=
  fun k => if k = "image" then some "ami-xxxxxx" else if k = "type" then some "m1.micro" else none

/-- The `params` of `TestCreateMachineDefaultRegion`. -/
def defaultRegionParams : Params := .allocated defaultRegionEntries

/-- The entries of the `params` of `TestCreateMachine`: a region, an image and
a type. -/
def regionEntries : Entries :=
  fun k => if k = "region" then some "myregion" else defaultRegionEntries k

/-- The `params` of `TestCreateMachine`. -/
def regionParams : Params := .allocated regionEntries

/-- The world at the start of a test: time zero, nothing called yet. -/
def startWorld : World := { clock := 0, log := [] }

/-- Sleeps that are exact except the one after the second describe call, which
overshoots by 200 ms. -/
def lateSleep (w : World) : Nat :=
  if describeCount w = 2 then 200000000 else 0

/-! ## The readiness poller -/

theorem timeoutBound_lt (raw : String) : timeoutBound raw < 9223372036854775807 := by
  unfold timeoutBound wrapInt64 Second
  generalize maxWaitTime raw = m
  omega

theorem elapsed_gt_iff (t0 : Nat) (w : World) (raw : String) :
    elapsed t0 w > timeoutBound raw ↔ ((w.clock - t0 : Nat) : Int) > timeoutBound raw := by
  have h := timeoutBound_lt raw
  unfold elapsed maxInt64
  omega

theorem afterConfig_clock (i : EC2IaaS) (w : World) : (afterConfig i w).clock = w.clock := rfl

theorem afterConfig_log (i : EC2IaaS) (w : World) :
    (afterConfig i w).log = w.log ++ [.getConfigString i.base "wait-timeout"] := rfl

theorem afterDescribe_clock (env : Env) (i : EC2IaaS) (h : EC2) (instId : String) (w : World) :
    (afterDescribe env i h instId w).clock
      = w.clock + pollInterval + env.oversleep (afterConfig i w) := rfl

theorem afterDescribe_log (env : Env) (i : EC2IaaS) (h : EC2) (instId : String) (w : World) :
    (afterDescribe env i h instId w).log
      = w.log ++ [.getConfigString i.base "wait-timeout", .sleep pollInterval,
                  .describeInstances h ⟨[instId]⟩] := by
  simp [afterDescribe, afterConfig, Sleep, World.record]

theorem elapsed_gt_configuredBound (env : Env) (i : EC2IaaS) (t0 : Nat) (w : World) :
    elapsed t0 (afterConfig i w) > configuredBound env i w ↔
      ((w.clock - t0 : Nat) : Int) > configuredBound env i w := by
  unfold configuredBound
  rw [elapsed_gt_iff, afterConfig_clock]

theorem pollStep_ready (env : Env) (i : EC2IaaS) (h : EC2) (t0 : Nat) (w : World)
    (inst : Instance) (hm : addressMissing inst = false) :
    pollStep env i h t0 w inst = .done (.ok inst) w := by
  simp [pollStep, hm]

theorem pollStep_nil_id (env : Env) (i : EC2IaaS) (h : EC2) (t0 : Nat) (w : World)
    (inst : Instance) (hm : addressMissing inst = true) (hid : inst.InstanceID = none) :
    pollStep env i h t0 w inst = .panicked nilDereference := by
  simp [pollStep, hm, hid, GetConfigString]

theorem pollStep_timeout (env : Env) (i : EC2IaaS) (h : EC2) (t0 : Nat) (w : World)
    (inst : Instance) (instId : String) (hm : addressMissing inst = true)
    (hid : inst.InstanceID = some instId)
    (hto : elapsed t0 (afterConfig i w) > configuredBound env i w) :
    pollStep env i h t0 w inst = .done (.error (timeoutError instId)) (afterConfig i w) := by
  simp only [afterConfig, configuredBound] at hto
  simp only [pollStep, hm, if_true, GetConfigString, hid]
  rw [if_pos hto]; rfl

theorem pollStep_describe (env : Env) (i : EC2IaaS) (h : EC2) (t0 : Nat) (w : World)
    (inst : Instance) (instId : String) (hm : addressMissing inst = true)
    (hid : inst.InstanceID = some instId)
    (hto : ¬ elapsed t0 (afterConfig i w) > configuredBound env i w) :
    pollStep env i h t0 w inst =
      match env.DescribeInstances h (Sleep env pollInterval (afterConfig i w)) ⟨[instId]⟩ with
      | .error err => .done (.error err) (afterDescribe env i h instId w)
      | .ok resp =>
        match firstInstance (.ok resp) with
        | none => .done (.error "No instances returned") (afterDescribe env i h instId w)
        | some described => .again described (afterDescribe env i h instId w) := by
  simp only [afterConfig, configuredBound] at hto
  simp only [pollStep, hm, if_true, GetConfigString, hid]
  rw [if_neg hto]
  simp only [afterDescribe, afterConfig]
  cases hd : env.DescribeInstances h
      (Sleep env pollInterval (w.record (.getConfigString i.base "wait-timeout"))) ⟨[instId]⟩ with
  | error err => rfl
  | ok resp =>
    obtain ⟨rs⟩ := resp
    cases rs with
    | nil => rfl
    | cons r rest =>
      obtain ⟨is⟩ := r
      cases is with
      | nil => rfl
      | cons d ds => rfl

/-- The five ways one pass through the loop can go. -/
theorem pollStep_cases (env : Env) (i : EC2IaaS) (h : EC2) (t0 : Nat) (w : World)
    (inst : Instance) :
    (addressMissing inst = false ∧ pollStep env i h t0 w inst = .done (.ok inst) w) ∨
    (addressMissing inst = true ∧ inst.InstanceID = none ∧
      pollStep env i h t0 w inst = .panicked nilDereference) ∨
    (∃ instId, addressMissing inst = true ∧ inst.InstanceID = some instId ∧
      elapsed t0 (afterConfig i w) > configuredBound env i w ∧
      pollStep env i h t0 w inst = .done (.error (timeoutError instId)) (afterConfig i w)) ∨
    (∃ instId, addressMissing inst = true ∧ inst.InstanceID = some instId ∧
      ¬ elapsed t0 (afterConfig i w) > configuredBound env i w ∧
      firstInstance (env.DescribeInstances h (Sleep env pollInterval (afterConfig i w))
        ⟨[instId]⟩) = none ∧
      ∃ err, pollStep env i h t0 w inst = .done (.error err) (afterDescribe env i h instId w)) ∨
    (∃ instId, addressMissing inst = true ∧ inst.InstanceID = some instId ∧
      ¬ elapsed t0 (afterConfig i w) > configuredBound env i w ∧
      ∃ described,
        firstInstance (env.DescribeInstances h (Sleep env pollInterval (afterConfig i w))
          ⟨[instId]⟩) = some described ∧
        pollStep env i h t0 w inst = .again described (afterDescribe env i h instId w)) := by
  cases hm : addressMissing inst with
  | false => exact Or.inl ⟨rfl, pollStep_ready env i h t0 w inst hm⟩
  | true =>
    right
    cases hid : inst.InstanceID with
    | none => exact Or.inl ⟨rfl, rfl, pollStep_nil_id env i h t0 w inst hm hid⟩
    | some instId =>
      right
      by_cases hto : elapsed t0 (afterConfig i w) > configuredBound env i w
      · exact Or.inl ⟨instId, rfl, rfl, hto, pollStep_timeout env i h t0 w inst instId hm hid hto⟩
      · right
        have hs := pollStep_describe env i h t0 w inst instId hm hid hto
        cases hd : env.DescribeInstances h (Sleep env pollInterval (afterConfig i w))
            ⟨[instId]⟩ with
        | error err =>
          rw [hd] at hs
          exact Or.inl ⟨instId, rfl, rfl, hto, by rw [hd]; rfl, err, hs⟩
        | ok resp =>
          rw [hd] at hs
          cases hf : firstInstance (.ok resp) with
          | none =>
            simp only [hf] at hs
            exact Or.inl ⟨instId, rfl, rfl, hto, by rw [hd]; exact hf, _, hs⟩
          | some d =>
            simp only [hf] at hs
            exact Or.inr ⟨instId, rfl, rfl, hto, d, by rw [hd]; exact hf, hs⟩

/-- What the loop returns: the clock has not gone back, the log has grown by
calls of the poller only, an instance returned has an address, and an error is
returned only for an instance with an id. -/
theorem waitLoop_returned (env : Env) (i : EC2IaaS) (h : EC2) (t0 : Nat) :
    ∀ (fuel : Nat) (w : World) (inst : Instance) (res : Except GoError Instance) (w' : World),
      waitLoop env i h t0 fuel w inst = .returned (res, w') →
      w.clock ≤ w'.clock ∧
        (∃ evs, w'.log = w.log ++ evs ∧ ∀ e ∈ evs, Event.isPollEvent h e = true) ∧
        (∀ inst', res = .ok inst' → addressMissing inst' = false) ∧
        (addressMissing inst = false → res = .ok inst ∧ w' = w) ∧
        (∀ err, res = .error err → ∃ id, inst.InstanceID = some id) := by
  intro fuel
  induction fuel with
  | zero => intro w inst res w' hw; simp [waitLoop] at hw
  | succ n ih =>
    intro w inst res w' hw
    rcases pollStep_cases env i h t0 w inst with ⟨hm, hs⟩ | ⟨hm, _, hs⟩ | ⟨id, hm, hid, hto, hs⟩ |
      ⟨id, hm, hid, hto, _, err, hs⟩ | ⟨id, hm, hid, hto, d, hd, hs⟩
    · simp only [waitLoop, hs, Outcome.returned.injEq, Prod.mk.injEq] at hw
      obtain ⟨rfl, rfl⟩ := hw
      refine ⟨le_refl _, ⟨[], by simp, by simp⟩, ?_, ?_, ?_⟩
      · intro inst' hh; cases hh; exact hm
      · intro _; exact ⟨rfl, rfl⟩
      · intro err hh; cases hh
    · simp [waitLoop, hs] at hw
    · simp only [waitLoop, hs, Outcome.returned.injEq, Prod.mk.injEq] at hw
      obtain ⟨rfl, rfl⟩ := hw
      refine ⟨by simp [afterConfig_clock], ⟨_, afterConfig_log i w, by simp [Event.isPollEvent]⟩,
        ?_, ?_, ?_⟩
      · intro inst' hh; cases hh
      · intro hh; simp [hh] at hm
      · intro _ _; exact ⟨id, hid⟩
    · simp only [waitLoop, hs, Outcome.returned.injEq, Prod.mk.injEq] at hw
      obtain ⟨rfl, rfl⟩ := hw
      refine ⟨by simp [afterDescribe_clock]; omega,
        ⟨_, afterDescribe_log env i h _ w, by simp [Event.isPollEvent]⟩, ?_, ?_, ?_⟩
      · intro inst' hh; cases hh
      · intro hh; simp [hh] at hm
      · intro _ _; exact ⟨id, hid⟩
    · simp only [waitLoop, hs] at hw
      have hc := afterDescribe_clock env i h id w
      obtain ⟨hclk, ⟨evs, hevs, hall⟩, hok, _, _⟩ := ih _ _ _ _ hw
      refine ⟨by omega,
        ⟨[.getConfigString i.base "wait-timeout", .sleep pollInterval,
          .describeInstances h ⟨[id]⟩] ++ evs, ?_, ?_⟩, hok, ?_, ?_⟩
      · rw [hevs, afterDescribe_log, List.append_assoc]
      · intro e he
        rcases List.mem_append.1 he with he | he
        · simp at he
          rcases he with rfl | rfl | rfl <;> simp [Event.isPollEvent]
        · exact hall e he
      · intro hh; simp [hh] at hm
      · intro _ _; exact ⟨id, hid⟩

/-- With enough iterations the loop does not run out of them. -/
theorem waitLoop_fuel (env : Env) (i : EC2IaaS) (h : EC2) (t0 : Nat) :
    ∀ (fuel : Nat) (w : World) (inst : Instance), t0 ≤ w.clock → 1 ≤ fuel →
      9223372036854775808 ≤ (w.clock - t0) + (fuel - 1) * pollInterval →
      waitLoop env i h t0 fuel w inst ≠ .outOfFuel := by
  intro fuel
  induction fuel with
  | zero => intro w inst _ h1; omega
  | succ n ih =>
    intro w inst ht _ hf
    rcases pollStep_cases env i h t0 w inst with ⟨hm, hs⟩ | ⟨hm, _, hs⟩ | ⟨id, hm, hid, hto, hs⟩ |
      ⟨id, hm, hid, hto, _, err, hs⟩ | ⟨id, hm, hid, hto, d, hd, hs⟩
    · simp [waitLoop, hs]
    · simp [waitLoop, hs]
    · simp [waitLoop, hs]
    · simp [waitLoop, hs]
    · rw [elapsed_gt_configuredBound] at hto
      have hb := timeoutBound_lt (valueOrZero (env.GetConfigString i.base w "wait-timeout"))
      have hc := afterDescribe_clock env i h id w
      simp only [pollInterval] at hf hc ih
      simp only [configuredBound] at hto
      simp only [waitLoop, hs]
      exact ih (afterDescribe env i h id w) d (by omega) (by omega) (by omega)

/-- The loop does not panic when the instance it starts from and the first
instance of every describe response carry an id. -/
theorem waitLoop_no_panic (env : Env) (i : EC2IaaS) (h : EC2) (t0 : Nat)
    (hids : ∀ before req described,
      firstInstance (env.DescribeInstances h before req) = some described →
      ∃ id, described.InstanceID = some id) :
    ∀ (fuel : Nat) (w : World) (inst : Instance) (reason : String),
      (∃ id, inst.InstanceID = some id) →
      waitLoop env i h t0 fuel w inst ≠ .panicked reason := by
  intro fuel
  induction fuel with
  | zero => intro w inst reason _; simp [waitLoop]
  | succ n ih =>
    intro w inst reason hinst
    rcases pollStep_cases env i h t0 w inst with ⟨hm, hs⟩ | ⟨hm, hnil, hs⟩ | ⟨id, hm, hid, hto, hs⟩ |
      ⟨id, hm, hid, hto, _, err, hs⟩ | ⟨id, hm, hid, hto, d, hd, hs⟩
    · simp [waitLoop, hs]
    · obtain ⟨id, hid⟩ := hinst
      rw [hnil] at hid; cases hid
    · simp [waitLoop, hs]
    · simp [waitLoop, hs]
    · simp only [waitLoop, hs]
      exact ih _ d reason (hids _ _ _ hd)

/-- More iterations do not change how the loop ends, once it ends. -/
theorem waitLoop_mono (env : Env) (i : EC2IaaS) (h : EC2) (t0 : Nat) :
    ∀ (fuel more : Nat) (w : World) (inst : Instance),
      waitLoop env i h t0 fuel w inst ≠ .outOfFuel →
      waitLoop env i h t0 (fuel + more) w inst = waitLoop env i h t0 fuel w inst := by
  intro fuel
  induction fuel with
  | zero => intro more w inst hw; simp [waitLoop] at hw
  | succ n ih =>
    intro more w inst hw
    rw [Nat.succ_add]
    cases hs : pollStep env i h t0 w inst with
    | done res w1 => simp only [waitLoop, hs]
    | panicked reason => simp only [waitLoop, hs]
    | again d w1 =>
      simp only [waitLoop, hs] at hw ⊢
      exact ih more w1 d hw

/-- The poller does not run out of iterations. -/
theorem waitForDnsName_ends (env : Env) (i : EC2IaaS) (h : EC2) (inst : Instance) (w : World) :
    waitForDnsName env i h inst w ≠ .outOfFuel :=
  waitLoop_fuel env i h w.clock pollFuel w inst (le_refl _) (by decide)
    (by simp [pollFuel, pollInterval])

/-- The number of iterations given to the loop is enough: any larger number
gives what `waitForDnsName` gives. -/
theorem waitForDnsName_fuel (env : Env) (i : EC2IaaS) (h : EC2) (inst : Instance) (w : World)
    (more : Nat) :
    waitLoop env i h w.clock (pollFuel + more) w inst = waitForDnsName env i h inst w :=
  waitLoop_mono env i h w.clock pollFuel more w inst (waitForDnsName_ends env i h inst w)

/-- What the poller returns, when it returns. -/
theorem waitForDnsName_returned (env : Env) (i : EC2IaaS) (h : EC2) (inst : Instance) (w : World)
    (res : Except GoError Instance) (w' : World)
    (hw : waitForDnsName env i h inst w = .returned (res, w')) :
    w.clock ≤ w'.clock ∧
      (∃ evs, w'.log = w.log ++ evs ∧ ∀ e ∈ evs, Event.isPollEvent h e = true) ∧
      (∀ inst', res = .ok inst' → addressMissing inst' = false) ∧
      (addressMissing inst = false → res = .ok inst ∧ w' = w) ∧
      (∀ err, res = .error err → ∃ id, inst.InstanceID = some id) :=
  waitLoop_returned env i h w.clock pollFuel w inst res w' hw

/-- The poller returns when the instances it looks at carry an id. -/
theorem waitForDnsName_returns (env : Env) (i : EC2IaaS) (h : EC2) (inst : Instance) (w : World)
    (hids : ∀ before req described,
      firstInstance (env.DescribeInstances h before req) = some described →
      ∃ id, described.InstanceID = some id)
    (hinst : ∃ id, inst.InstanceID = some id) :
    ∃ res w', waitForDnsName env i h inst w = .returned (res, w') := by
  cases hw : waitForDnsName env i h inst w with
  | returned r => exact ⟨r.1, r.2, rfl⟩
  | panicked reason =>
    exact absurd hw (waitLoop_no_panic env i h w.clock hids pollFuel w inst reason hinst)
  | outOfFuel => exact absurd hw (waitForDnsName_ends env i h inst w)


/-- An instance the loop returns is the one it was given, when that one has an
address, and otherwise the first instance of the last describe response. -/
theorem waitLoop_ok_origin (env : Env) (i : EC2IaaS) (h : EC2) (t0 : Nat) :
    ∀ (fuel : Nat) (w : World) (inst inst' : Instance) (w' : World),
      waitLoop env i h t0 fuel w inst = .returned (.ok inst', w') →
      (addressMissing inst = false ∧ inst' = inst ∧ w' = w) ∨
      (addressMissing inst = true ∧ ∃ before id,
        firstInstance (env.DescribeInstances h before ⟨[id]⟩) = some inst' ∧
        w' = before.record (.describeInstances h ⟨[id]⟩)) := by
  intro fuel
  induction fuel with
  | zero => intro w inst inst' w' hw; simp [waitLoop] at hw
  | succ n ih =>
    intro w inst inst' w' hw
    rcases pollStep_cases env i h t0 w inst with ⟨hm, hs⟩ | ⟨hm, _, hs⟩ | ⟨id, hm, hid, hto, hs⟩ |
      ⟨id, hm, hid, hto, _, err, hs⟩ | ⟨id, hm, hid, hto, d, hd, hs⟩
    · simp only [waitLoop, hs, Outcome.returned.injEq, Prod.mk.injEq, Except.ok.injEq] at hw
      exact Or.inl ⟨hm, hw.1.symm, hw.2.symm⟩
    · simp [waitLoop, hs] at hw
    · simp [waitLoop, hs] at hw
    · simp [waitLoop, hs] at hw
    · simp only [waitLoop, hs] at hw
      right
      refine ⟨hm, ?_⟩
      rcases ih _ _ _ _ hw with ⟨_, rfl, rfl⟩ | ⟨_, before, id', h1, h2⟩
      · exact ⟨_, _, hd, rfl⟩
      · exact ⟨before, id', h1, h2⟩

theorem afterCreds_log (i : EC2IaaS) (w : World) :
    (afterCreds i w).log = w.log ++ [.getConfigString i.base "key-id",
      .getConfigString i.base "secret-key", .getConfigString i.base "security-token"] := by
  simp [afterCreds, World.record]

theorem createEC2Handler_ok (env : Env) (i : EC2IaaS) (region : String) (w : World)
    (hc : credentialsConfigured env i w) :
    createEC2Handler env i region w = (.ok (handlerFor env i region w), afterCreds i w) := by
  obtain ⟨⟨k, hk⟩, ⟨s, hs⟩⟩ := hc
  simp [createEC2Handler, GetConfigString, hk, hs, handlerFor, afterCreds, valueOrZero]

theorem createEC2Handler_spec (env : Env) (i : EC2IaaS) (region : String) (w : World)
    (c : EC2) :
    (createEC2Handler env i region w = (.ok (handlerFor env i region w), afterCreds i w) ∧
      credentialsConfigured env i w) ∨
    (∃ err w', createEC2Handler env i region w = (.error err, w') ∧
      ¬ credentialsConfigured env i w ∧
      ∃ evs, w'.log = w.log ++ evs ∧ ∀ e ∈ evs, Event.isLaunchEvent c e = true) := by
  cases hk : env.GetConfigString i.base w "key-id" with
  | error err =>
    right
    refine ⟨err, w.record (.getConfigString i.base "key-id"),
      by simp [createEC2Handler, GetConfigString, hk], ?_,
      [.getConfigString i.base "key-id"], rfl, ?_⟩
    · rintro ⟨⟨k, hk'⟩, _⟩; rw [hk] at hk'; cases hk'
    · simp [Event.isLaunchEvent]
  | ok k =>
    cases hs : env.GetConfigString i.base (w.record (.getConfigString i.base "key-id"))
        "secret-key" with
    | error err =>
      right
      refine ⟨err, (w.record (.getConfigString i.base "key-id")).record
          (.getConfigString i.base "secret-key"),
        by simp [createEC2Handler, GetConfigString, hk, hs], ?_,
        [.getConfigString i.base "key-id", .getConfigString i.base "secret-key"], ?_, ?_⟩
      · rintro ⟨_, ⟨s, hs'⟩⟩; rw [hs] at hs'; cases hs'
      · simp [World.record]
      · simp [Event.isLaunchEvent]
    | ok s =>
      left
      have hc : credentialsConfigured env i w := ⟨⟨k, hk⟩, ⟨s, hs⟩⟩
      exact ⟨createEC2Handler_ok env i region w hc, hc⟩

theorem resolveRegion_nil : resolveRegion .nil = none := rfl

theorem resolveRegion_allocated (m : Entries) :
    resolveRegion (.allocated m) = some (.allocated (resolveEntries m)) := by
  unfold resolveRegion resolveEntries
  cases h : m "region" <;> simp [Params.get, Params.set, h]

theorem resolveEntries_region (m : Entries) :
    resolveEntries m "region" = some (resolvedRegion (.allocated m)) := by
  unfold resolveEntries resolvedRegion
  cases h : m "region" <;> simp [h, Entries.set, Params.get]

theorem resolveEntries_other (m : Entries) (k : String) (hk : k ≠ "region") :
    resolveEntries m k = m k := by
  unfold resolveEntries
  split <;> simp [Entries.set, hk]

theorem launchInstance_nil (env : Env) (i : EC2IaaS) (w : World) :
    launchInstance env i .nil w = .panicked nilMapWrite := rfl

/-- Every way `launchInstance` can end on an allocated map, with the world it
leaves. -/
theorem launchInstance_cases (env : Env) (i : EC2IaaS) (m : Entries) (w : World) :
    (∃ err w', launchInstance env i (.allocated m) w
        = .early ⟨none, some err, .allocated (resolveEntries m), w'⟩ ∧
      ∃ evs, w'.log = w.log ++ evs ∧
        ∀ e ∈ evs, Event.isLaunchEvent (launchClient env i (.allocated m) w) e = true) ∨
    (∃ runInst w', launchInstance env i (.allocated m) w
        = .launched ⟨launchClient env i (.allocated m) w, runInst,
            .allocated (resolveEntries m), w'⟩ ∧
      credentialsConfigured env i (w.record (.readUserData i.base)) ∧
      (∃ before req insts rest, env.RunInstances (launchClient env i (.allocated m) w) before req
          = .ok insts ∧ insts.Instances = runInst :: rest) ∧
      ∃ evs, w'.log = w.log ++ evs ∧
        ∀ e ∈ evs, Event.isLaunchEvent (launchClient env i (.allocated m) w) e = true) := by
  have hreg := resolveEntries_region m
  unfold launchInstance
  simp only [resolveRegion_allocated, Params.get, hreg, Option.getD_some]
  cases himg : resolveEntries m "image" with
  | none => exact Or.inl ⟨_, w, rfl, [], by simp, by simp⟩
  | some imageId =>
    cases hty : resolveEntries m "type" with
    | none => exact Or.inl ⟨_, w, rfl, [], by simp, by simp⟩
    | some instanceType =>
      cases hud : env.ReadUserData i.base w with
      | error err =>
        left
        refine ⟨err, w.record (.readUserData i.base), by simp [ReadUserData, hud],
          [.readUserData i.base], rfl, by simp [Event.isLaunchEvent]⟩
      | ok userData =>
        simp only [ReadUserData, hud]
        rcases createEC2Handler_spec env i (resolvedRegion (.allocated m))
            (w.record (.readUserData i.base)) (launchClient env i (.allocated m) w) with
          ⟨hh, hc⟩ | ⟨err, w', hh, _, evs, hevs, hall⟩
        · rw [hh]
          simp only
          cases hrun : env.RunInstances (handlerFor env i (resolvedRegion (.allocated m))
                (w.record (.readUserData i.base)))
              (afterCreds i (w.record (.readUserData i.base)))
              (runRequest (.allocated (resolveEntries m)) imageId instanceType userData) with
          | error err =>
            left
            refine ⟨err, _, rfl, [.readUserData i.base, .getConfigString i.base "key-id",
              .getConfigString i.base "secret-key", .getConfigString i.base "security-token",
              .runInstances (launchClient env i (.allocated m) w)
                (runRequest (.allocated (resolveEntries m)) imageId instanceType userData)],
              ?_, ?_⟩
            · simp [World.record, afterCreds, launchClient]
            · simp [Event.isLaunchEvent]
          | ok resp =>
            obtain ⟨insts⟩ := resp
            cases insts with
            | nil =>
              left
              refine ⟨_, _, rfl, [.readUserData i.base, .getConfigString i.base "key-id",
                .getConfigString i.base "secret-key", .getConfigString i.base "security-token",
                .runInstances (launchClient env i (.allocated m) w)
                  (runRequest (.allocated (resolveEntries m)) imageId instanceType userData)],
                ?_, ?_⟩
              · simp [World.record, afterCreds, launchClient]
              · simp [Event.isLaunchEvent]
            | cons runInst rest =>
              right
              refine ⟨runInst, _, rfl, hc, ⟨_, _, _, rest, hrun, rfl⟩, [.readUserData i.base,
                .getConfigString i.base "key-id",
                .getConfigString i.base "secret-key", .getConfigString i.base "security-token",
                .runInstances (launchClient env i (.allocated m) w)
                  (runRequest (.allocated (resolveEntries m)) imageId instanceType userData)],
                ?_, ?_⟩
              · simp [World.record, afterCreds, launchClient]
              · simp [Event.isLaunchEvent]
        · left
          rw [hh]
          refine ⟨err, w', rfl, .readUserData i.base :: evs, ?_, ?_⟩
          · simp [hevs, World.record]
          · intro e he
            rcases List.mem_cons.1 he with rfl | he
            · simp [Event.isLaunchEvent]
            · exact hall e he


/-! ## The orchestrator -/

theorem addressMissing_false (inst : Instance) (h : addressMissing inst = false) :
    ∃ a, inst.PublicDNSName = some a ∧ a ≠ "" := by
  unfold addressMissing at h
  cases hd : inst.PublicDNSName with
  | none => simp [hd] at h
  | some a => exact ⟨a, rfl, by simpa [hd] using h⟩

/-- The three ways `CreateMachine` can return. -/
theorem CreateMachine_returned (env : Env) (i : EC2IaaS) (params : Params) (w : World)
    (r : CreateResult) (hr : CreateMachine env i params w = .returned r) :
    (launchInstance env i params w = .early r) ∨
    (∃ l err w4 id, launchInstance env i params w = .launched l ∧
      waitForDnsName env i l.ec2Handler l.runInst l.world = .returned (.error err, w4) ∧
      l.runInst.InstanceID = some id ∧
      r = ⟨none, some err, l.params,
        w4.record (.terminateInstances l.ec2Handler ⟨[id]⟩)⟩) ∨
    (∃ l inst w4 id status address, launchInstance env i params w = .launched l ∧
      waitForDnsName env i l.ec2Handler l.runInst l.world = .returned (.ok inst, w4) ∧
      inst.InstanceID = some id ∧ inst.stateName = some status ∧
      inst.PublicDNSName = some address ∧ address ≠ "" ∧
      r = ⟨some ⟨id, status, address, .nil⟩, none, l.params, w4⟩) := by
  unfold CreateMachine at hr
  cases hl : launchInstance env i params w with
  | panicked reason => simp [hl] at hr
  | early early =>
    simp only [hl, Outcome.returned.injEq] at hr
    exact Or.inl (by rw [hr])
  | launched l =>
    right
    simp only [hl] at hr
    cases hw : waitForDnsName env i l.ec2Handler l.runInst l.world with
    | outOfFuel => simp [hw] at hr
    | panicked reason => simp [hw] at hr
    | returned res =>
      obtain ⟨res, w4⟩ := res
      simp only [hw] at hr
      cases res with
      | error err =>
        left
        cases hid : l.runInst.InstanceID with
        | none => simp [hid] at hr
        | some id =>
          simp only [hid, Outcome.returned.injEq] at hr
          exact ⟨l, err, w4, id, rfl, hw, hid, hr.symm⟩
      | ok inst =>
        right
        obtain ⟨_, _, hok, _, _⟩ := waitForDnsName_returned env i _ _ _ _ _ hw
        obtain ⟨a, ha, hne⟩ := addressMissing_false inst (hok inst rfl)
        cases hid : inst.InstanceID with
        | none => simp [hid] at hr
        | some id =>
          cases hst : inst.stateName with
          | none => simp [hid, hst] at hr
          | some status =>
            simp only [hid, hst, ha, Outcome.returned.injEq] at hr
            exact ⟨l, inst, w4, id, status, a, rfl, hw, hid, hst, ha, hne, hr.symm⟩

/-- With an allocated `params` map and instances that carry an id and a state,
`CreateMachine` returns. -/
theorem CreateMachine_returns (env : Env) (i : EC2IaaS) (m : Entries) (w : World)
    (hwf : instancesCarryIdAndState env) :
    ∃ r, CreateMachine env i (.allocated m) w = .returned r := by
  rcases launchInstance_cases env i m w with ⟨err, w', hl, _⟩ |
    ⟨runInst, w', hl, _, ⟨before, req, insts, rest, hrun, hinsts⟩, _⟩
  · simp only [CreateMachine, hl]
    exact ⟨_, rfl⟩
  · obtain ⟨⟨id, hid⟩, _⟩ := hwf.1 _ _ _ _ _ _ hrun hinsts
    obtain ⟨res, w4, hw⟩ := waitForDnsName_returns env i
      (launchClient env i (.allocated m) w) runInst w'
      (fun before req d hd => (hwf.2 _ before req d hd).1) ⟨id, hid⟩
    cases res with
    | error err =>
      simp only [CreateMachine, hl, hw, hid]
      exact ⟨_, rfl⟩
    | ok inst =>
      obtain ⟨_, _, hok, _, _⟩ := waitForDnsName_returned env i _ _ _ _ _ hw
      obtain ⟨a, ha, _⟩ := addressMissing_false inst (hok inst rfl)
      have hinst : inst.carriesIdAndState := by
        rcases waitLoop_ok_origin env i _ _ _ _ _ _ _ hw with ⟨_, h1, _⟩ | ⟨_, before', id', h1, _⟩
        · rw [h1]
          exact hwf.1 _ _ _ _ _ _ hrun hinsts
        · exact hwf.2 _ _ _ _ h1
      obtain ⟨⟨id', hid'⟩, ⟨st, hst⟩⟩ := hinst
      simp only [CreateMachine, hl, hw, hid', hst, ha]
      exact ⟨_, rfl⟩

theorem newEvents_append (w w' : World) (evs : List Event) (h : w'.log = w.log ++ evs) :
    newEvents w w' = evs := by
  simp [newEvents, h]

theorem isLaunchEvent_not_terminate (c : EC2) (e : Event)
    (h : Event.isLaunchEvent c e = true) : Event.isTerminate e = false := by
  cases e <;> simp_all [Event.isLaunchEvent, Event.isTerminate]

theorem isPollEvent_not_terminate (c : EC2) (e : Event)
    (h : Event.isPollEvent c e = true) : Event.isTerminate e = false := by
  cases e <;> simp_all [Event.isPollEvent, Event.isTerminate]

theorem isLaunchEvent_client (c' : EC2) (e : Event) (c : EC2)
    (h : Event.isLaunchEvent c' e = true) (hc : e.client? = some c) : c = c' := by
  cases e <;> simp_all [Event.isLaunchEvent, Event.client?]

theorem isPollEvent_client (c' : EC2) (e : Event) (c : EC2)
    (h : Event.isPollEvent c' e = true) (hc : e.client? = some c) : c = c' := by
  cases e <;> simp_all [Event.isPollEvent, Event.client?]

/-- Every provider call of a run of `CreateMachine` that returns goes through
the client built for the resolved region, and the `params` map comes back with
the region resolved. -/
theorem CreateMachine_events (env : Env) (i : EC2IaaS) (m : Entries) (w : World)
    (r : CreateResult) (hr : CreateMachine env i (.allocated m) w = .returned r) :
    r.params = .allocated (resolveEntries m) ∧
      (∀ e ∈ newEvents w r.world, ∀ c, e.client? = some c →
        c = launchClient env i (.allocated m) w) ∧
      (∀ mach, r.machine = some mach →
        credentialsConfigured env i (w.record (.readUserData i.base))) := by
  rcases CreateMachine_returned env i _ w r hr with hearly | ⟨l, err, w4, id, hl, hw, hid, rfl⟩ |
    ⟨l, inst, w4, id, status, address, hl, hw, hid, hst, ha, hne, rfl⟩
  · rcases launchInstance_cases env i m w with ⟨err, w', hl, evs, hevs, hall⟩ |
      ⟨runInst, w', hl, _⟩
    · rw [hl] at hearly
      cases hearly
      refine ⟨rfl, ?_, by intro mach hm; cases hm⟩
      rw [newEvents_append _ _ _ hevs]
      intro e he c hc
      exact isLaunchEvent_client _ e c (hall e he) hc
    · rw [hl] at hearly; cases hearly
  · rcases launchInstance_cases env i m w with ⟨err', w', hl', _⟩ |
      ⟨runInst, w', hl', hcred, _, levs, hlevs, hlall⟩
    · rw [hl] at hl'; cases hl'
    · rw [hl] at hl'
      cases hl'
      obtain ⟨_, ⟨pevs, hpevs, hpall⟩, _⟩ := waitForDnsName_returned env i _ _ _ _ _ hw
      refine ⟨rfl, ?_, by intro mach hm; cases hm⟩
      have hlog : (w4.record (.terminateInstances (launchClient env i (.allocated m) w)
          ⟨[id]⟩)).log = w.log ++ (levs ++ pevs ++
            [.terminateInstances (launchClient env i (.allocated m) w) ⟨[id]⟩]) := by
        simp only [World.record, hpevs]
        simp only [hlevs, List.append_assoc]
      rw [newEvents_append _ _ _ hlog]
      intro e he c hc
      simp only [List.mem_append, List.mem_singleton] at he
      rcases he with (he | he) | rfl
      · exact isLaunchEvent_client _ e c (hlall e he) hc
      · exact isPollEvent_client _ e c (hpall e he) hc
      · simp only [Event.client?, Option.some.injEq] at hc
        exact hc.symm
  · rcases launchInstance_cases env i m w with ⟨err', w', hl', _⟩ |
      ⟨runInst, w', hl', hcred, _, levs, hlevs, hlall⟩
    · rw [hl] at hl'; cases hl'
    · rw [hl] at hl'
      cases hl'
      obtain ⟨_, ⟨pevs, hpevs, hpall⟩, _⟩ := waitForDnsName_returned env i _ _ _ _ _ hw
      refine ⟨rfl, ?_, fun _ _ => hcred⟩
      have hlog : w4.log = w.log ++ (levs ++ pevs) := by
        simp only [hpevs, hlevs, List.append_assoc]
      rw [newEvents_append _ _ _ hlog]
      intro e he c hc
      simp only [List.mem_append] at he
      rcases he with he | he
      · exact isLaunchEvent_client _ e c (hlall e he) hc
      · exact isPollEvent_client _ e c (hpall e he) hc

/-- A nil `params` map makes `CreateMachine` panic at the write of the region. -/
theorem CreateMachine_nil (env : Env) (i : EC2IaaS) (w : World) :
    CreateMachine env i .nil w = .panicked nilMapWrite := rfl


/-! ## A provider that never gives the address -/

theorem describeCount_afterConfig (i : EC2IaaS) (w : World) :
    describeCount (afterConfig i w) = describeCount w := by
  simp [describeCount, afterConfig_log, List.countP_append, Event.isDescribe]

theorem describeCount_afterDescribe (env : Env) (i : EC2IaaS) (h : EC2) (instId : String)
    (w : World) :
    describeCount (afterDescribe env i h instId w) = describeCount w + 1 := by
  simp [describeCount, afterDescribe_log, List.countP_append, List.countP_cons, Event.isDescribe]

/-- One pass through the loop against a provider that never gives the
address: the time-out, or one more describe call. -/
theorem pollStep_neverReady (env : Env) (i : EC2IaaS) (h : EC2) (t0 : Nat) (w : World)
    (inst : Instance) (id : String) (hnr : neverReady env h id)
    (hid : inst.InstanceID = some id) (hm : addressMissing inst = true) :
    (((w.clock - t0 : Nat) : Int) > configuredBound env i w ∧
      pollStep env i h t0 w inst = .done (.error (timeoutError id)) (afterConfig i w)) ∨
    (¬ ((w.clock - t0 : Nat) : Int) > configuredBound env i w ∧
      ∃ d, d.InstanceID = some id ∧ addressMissing d = true ∧
        pollStep env i h t0 w inst = .again d (afterDescribe env i h id w)) := by
  rcases pollStep_cases env i h t0 w inst with ⟨hm', _⟩ | ⟨_, hnil, _⟩ | ⟨id', _, hid', hto, hs⟩ |
    ⟨id', _, hid', _, hnone, _⟩ | ⟨id', _, hid', hto, d, hd, hs⟩
  · rw [hm] at hm'; cases hm'
  · rw [hid] at hnil; cases hnil
  · rw [hid] at hid'; cases hid'
    exact Or.inl ⟨(elapsed_gt_configuredBound env i t0 w).1 hto, hs⟩
  · rw [hid] at hid'; cases hid'
    obtain ⟨d, hd, _⟩ := hnr (Sleep env pollInterval (afterConfig i w)) ⟨[id]⟩
    rw [hd] at hnone
    simp [firstInstance] at hnone
  · rw [hid] at hid'; cases hid'
    obtain ⟨d', hd', hid'', hmiss⟩ := hnr (Sleep env pollInterval (afterConfig i w)) ⟨[id]⟩
    rw [hd'] at hd
    simp only [firstInstance, Option.some.injEq] at hd
    subst hd
    exact Or.inr ⟨fun hh => hto ((elapsed_gt_configuredBound env i t0 w).2 hh), d', hid'', hmiss,
      hs⟩

/-- Against a provider that never gives the address, with a bound `B` that
does not change, the loop can only return the time-out error; when every sleep
overshoots by at least `lo`, the number `n` of describe calls it makes is
bounded by the time that was left. -/
theorem waitLoop_neverReady_upper (env : Env) (i : EC2IaaS) (h : EC2) (t0 : Nat) (id : String)
    (B : Int) (lo : Nat) (hB : ∀ v, configuredBound env i v = B)
    (hnr : neverReady env h id) (hlo : ∀ v, lo ≤ env.oversleep v) :
    ∀ (fuel : Nat) (w : World) (inst : Instance) (res : Except GoError Instance) (w' : World),
      inst.InstanceID = some id → addressMissing inst = true → t0 ≤ w.clock →
      waitLoop env i h t0 fuel w inst = .returned (res, w') →
      res = .error (timeoutError id) ∧
      ∃ n : Nat, describeCount w' = describeCount w + n ∧
        w.clock + n * (pollInterval + lo) ≤ w'.clock ∧
        (((w.clock - t0 : Nat) : Int) ≤ B →
          ((n * (pollInterval + lo) : Nat) : Int)
            ≤ B - ((w.clock - t0 : Nat) : Int) + ((pollInterval + lo : Nat) : Int)) ∧
        (((w.clock - t0 : Nat) : Int) > B → n = 0) := by
  intro fuel
  induction fuel with
  | zero => intro w inst res w' _ _ _ hw; simp [waitLoop] at hw
  | succ k ih =>
    intro w inst res w' hid hm ht hw
    rcases pollStep_neverReady env i h t0 w inst id hnr hid hm with ⟨hto, hs⟩ |
      ⟨hto, d, hdid, hdm, hs⟩
    · rw [hB] at hto
      simp only [waitLoop, hs, Outcome.returned.injEq, Prod.mk.injEq] at hw
      obtain ⟨rfl, rfl⟩ := hw
      refine ⟨rfl, 0, by simp [describeCount_afterConfig], by simp [afterConfig_clock], ?_, ?_⟩
      · intro hle; omega
      · intro _; rfl
    · rw [hB] at hto
      simp only [waitLoop, hs] at hw
      have hc := afterDescribe_clock env i h id w
      have hlo' := hlo (afterConfig i w)
      obtain ⟨hres, n, hn, hclk, hle, hgt⟩ :=
        ih (afterDescribe env i h id w) d res w' hdid hdm (by omega) hw
      refine ⟨hres, n + 1, ?_, ?_, ?_, ?_⟩
      · rw [hn, describeCount_afterDescribe]; omega
      · rw [Nat.succ_mul]
        generalize n * (pollInterval + lo) = X at *
        omega
      · intro _
        rw [Nat.succ_mul]
        by_cases hcase : (((afterDescribe env i h id w).clock - t0 : Nat) : Int) ≤ B
        · have := hle hcase
          generalize n * (pollInterval + lo) = X at *
          omega
        · have := hgt (by omega)
          subst this
          simp only [Nat.zero_mul]
          omega
      · intro hh; exact absurd hh hto

/-- When no sleep overshoots by more than `hi`, the loop does not give up
before the bound has been passed: a lower bound on the describe calls. -/
theorem waitLoop_neverReady_lower (env : Env) (i : EC2IaaS) (h : EC2) (t0 : Nat) (id : String)
    (B : Int) (hi : Nat) (hB : ∀ v, configuredBound env i v = B)
    (hnr : neverReady env h id) (hhi : ∀ v, env.oversleep v ≤ hi) :
    ∀ (fuel : Nat) (w : World) (inst : Instance) (res : Except GoError Instance) (w' : World),
      inst.InstanceID = some id → addressMissing inst = true → t0 ≤ w.clock →
      waitLoop env i h t0 fuel w inst = .returned (res, w') →
      ∃ n : Nat, describeCount w' = describeCount w + n ∧
        w'.clock ≤ w.clock + n * (pollInterval + hi) ∧
        (((w.clock - t0 : Nat) : Int) ≤ B →
          B < ((w.clock - t0 : Nat) : Int) + ((n * (pollInterval + hi) : Nat) : Int)) := by
  intro fuel
  induction fuel with
  | zero => intro w inst res w' _ _ _ hw; simp [waitLoop] at hw
  | succ k ih =>
    intro w inst res w' hid hm ht hw
    rcases pollStep_neverReady env i h t0 w inst id hnr hid hm with ⟨hto, hs⟩ |
      ⟨hto, d, hdid, hdm, hs⟩
    · rw [hB] at hto
      simp only [waitLoop, hs, Outcome.returned.injEq, Prod.mk.injEq] at hw
      obtain ⟨rfl, rfl⟩ := hw
      refine ⟨0, by simp [describeCount_afterConfig], by simp [afterConfig_clock], ?_⟩
      intro hle; omega
    · rw [hB] at hto
      simp only [waitLoop, hs] at hw
      have hc := afterDescribe_clock env i h id w
      have hhi' := hhi (afterConfig i w)
      obtain ⟨n, hn, hclk, hlt⟩ :=
        ih (afterDescribe env i h id w) d res w' hdid hdm (by omega) hw
      refine ⟨n + 1, ?_, ?_, ?_⟩
      · rw [hn, describeCount_afterDescribe]; omega
      · rw [Nat.succ_mul]
        generalize n * (pollInterval + hi) = X at *
        omega
      · intro _
        rw [Nat.succ_mul]
        by_cases hcase : (((afterDescribe env i h id w).clock - t0 : Nat) : Int) ≤ B
        · have := hlt hcase
          generalize n * (pollInterval + hi) = X at *
          omega
        · generalize n * (pollInterval + hi) = X at *
          omega

theorem configuredBound_of_Atoi (env : Env) (i : EC2IaaS) (T : Nat) (hT : 1 ≤ T)
    (hcfg : ∀ v, Atoi (valueOrZero (env.GetConfigString i.base v "wait-timeout")) = (T : Int)) :
    (∀ v, configuredBound env i v = wrapInt64 ((T : Int) * 1000000000)) ∧
    wrapInt64 ((T : Int) * 1000000000) ≤ (T : Int) * 1000000000 ∧
    (T ≤ 9223372036 → wrapInt64 ((T : Int) * 1000000000) = (T : Int) * 1000000000) := by
  have hne : ¬ ((T : Int) = 0) := by omega
  refine ⟨?_, ?_, ?_⟩
  · intro v
    simp only [configuredBound, timeoutBound, maxWaitTime, hcfg v, hne, if_false, Second]
  · unfold wrapInt64; omega
  · intro _; unfold wrapInt64; omega


/-! ## The claims -/

/-- C1: when the create call has returned an instance and the readiness poller
then fails with an error, `CreateMachine` returns no machine and exactly that
error, for every behaviour of the terminate call; the created instance has an
id, the last call in the log is a terminate request for that id, and it is the
only terminate request of the run. -/
theorem CreateMachine_poll_failure (env : Env) (i : EC2IaaS) (params : Params) (w : World)
    (l : Launched) (err : GoError) (w4 : World)
    (hl : launchInstance env i params w = .launched l)
    (hp : waitForDnsName env i l.ec2Handler l.runInst l.world = .returned (.error err, w4)) :
    ∃ r id, CreateMachine env i params w = .returned r ∧ r.machine = none ∧
      r.err = some err ∧ l.runInst.InstanceID = some id ∧
      r.world.log.getLast? = some (.terminateInstances l.ec2Handler ⟨[id]⟩) ∧
      (newEvents w r.world).filter Event.isTerminate
        = [.terminateInstances l.ec2Handler ⟨[id]⟩] := by
  obtain ⟨_, ⟨pevs, hpevs, hpall⟩, _, _, herr⟩ := waitForDnsName_returned env i _ _ _ _ _ hp
  obtain ⟨id, hid⟩ := herr err rfl
  refine ⟨⟨none, some err, l.params, w4.record (.terminateInstances l.ec2Handler ⟨[id]⟩)⟩, id,
    by simp only [CreateMachine, hl, hp, hid], rfl, rfl, hid, by simp [World.record], ?_⟩
  cases params with
  | nil => rw [launchInstance_nil] at hl; cases hl
  | allocated m =>
    rcases launchInstance_cases env i m w with ⟨e, w', hl', _⟩ |
      ⟨runInst, w', hl', _, _, levs, hlevs, hlall⟩
    · rw [hl] at hl'; cases hl'
    · rw [hl] at hl'
      cases hl'
      have hlog : (w4.record (.terminateInstances (launchClient env i (.allocated m) w)
          ⟨[id]⟩)).log = w.log ++ (levs ++ pevs ++
            [.terminateInstances (launchClient env i (.allocated m) w) ⟨[id]⟩]) := by
        simp only [World.record, hpevs]
        simp only [hlevs, List.append_assoc]
      rw [newEvents_append _ _ _ hlog]
      have h1 : levs.filter Event.isTerminate = [] := by
        rw [List.filter_eq_nil_iff]
        intro e he
        simp [isLaunchEvent_not_terminate _ e (hlall e he)]
      have h2 : pevs.filter Event.isTerminate = [] := by
        rw [List.filter_eq_nil_iff]
        intro e he
        simp [isPollEvent_not_terminate _ e (hpall e he)]
      simp [List.filter_append, h1, h2, Event.isTerminate]

/-- The timeout test: one second, a provider that never gives the address and
refuses the terminate call. -/
theorem CreateMachine_poll_failure_witness :
    ∃ r id, CreateMachine stuckEnv NewEC2IaaS regionParams startWorld = .returned r ∧
      r.machine = none ∧
      r.err = some "ec2: time out waiting for instance i-1 to start" ∧
      (pendingInstance "i-1" none).InstanceID = some id ∧
      r.world.log.getLast?
        = some (.terminateInstances (launchClient stuckEnv NewEC2IaaS regionParams startWorld)
            ⟨[id]⟩) ∧
      (newEvents startWorld r.world).filter Event.isTerminate
        = [.terminateInstances (launchClient stuckEnv NewEC2IaaS regionParams startWorld)
            ⟨[id]⟩] :=
  CreateMachine_poll_failure stuckEnv NewEC2IaaS regionParams startWorld
    ⟨launchClient stuckEnv NewEC2IaaS regionParams startWorld, pendingInstance "i-1" none,
      .allocated (resolveEntries regionEntries),
      (afterCreds NewEC2IaaS (startWorld.record (.readUserData NewEC2IaaS.base))).record
        (.runInstances (launchClient stuckEnv NewEC2IaaS regionParams startWorld)
          (runRequest (.allocated (resolveEntries regionEntries)) "ami-xxxxxx" "m1.micro" ""))⟩
    "ec2: time out waiting for instance i-1 to start"
    (match waitForDnsName stuckEnv NewEC2IaaS
        (launchClient stuckEnv NewEC2IaaS regionParams startWorld)
        (pendingInstance "i-1" none)
        ((afterCreds NewEC2IaaS (startWorld.record (.readUserData NewEC2IaaS.base))).record
          (.runInstances (launchClient stuckEnv NewEC2IaaS regionParams startWorld)
            (runRequest (.allocated (resolveEntries regionEntries)) "ami-xxxxxx" "m1.micro"
              ""))) with
      | .returned (_, w4) => w4
      | _ => startWorld)
    rfl rfl

/-- C3, as the code has it: on an allocated `params` map `CreateMachine`
checks `image`, then `type`, before it calls any collaborator: without `image`
it returns no machine and the error "image param required", with `image` but
without `type` the error "type param required", and in both cases the world
(clock and log of calls) is the one it started in. -/
theorem CreateMachine_validates_first (env : Env) (i : EC2IaaS) (entries : Entries)
    (w : World) :
    (entries "image" = none →
      CreateMachine env i (.allocated entries) w
        = .returned ⟨none, some "image param required",
            .allocated (resolveEntries entries), w⟩) ∧
    (∀ imageId, entries "image" = some imageId → entries "type" = none →
      CreateMachine env i (.allocated entries) w
        = .returned ⟨none, some "type param required",
            .allocated (resolveEntries entries), w⟩) := by
  have h1 := resolveEntries_other entries "image" (by decide)
  have h2 := resolveEntries_other entries "type" (by decide)
  constructor
  · intro h
    simp [CreateMachine, launchInstance, resolveRegion_allocated, Params.get, h1, h]
  · intro imageId h h'
    simp [CreateMachine, launchInstance, resolveRegion_allocated, Params.get, h1, h2, h, h']

/-- The two validations, on a map without `image` and on one without `type`. -/
theorem CreateMachine_validates_first_witness :
    (CreateMachine stuckEnv NewEC2IaaS
        (.allocated (fun k => if k = "type" then some "m1.micro" else none)) startWorld
      = .returned ⟨none, some "image param required",
          .allocated (resolveEntries (fun k => if k = "type" then some "m1.micro" else none)),
          startWorld⟩) ∧
    (CreateMachine stuckEnv NewEC2IaaS
        (.allocated (fun k => if k = "image" then some "ami-xxxxxx" else none)) startWorld
      = .returned ⟨none, some "type param required",
          .allocated (resolveEntries (fun k => if k = "image" then some "ami-xxxxxx" else none)),
          startWorld⟩) :=
  ⟨(CreateMachine_validates_first stuckEnv NewEC2IaaS _ startWorld).1 (by decide),
   (CreateMachine_validates_first stuckEnv NewEC2IaaS _ startWorld).2 "ami-xxxxxx"
      (by decide) (by decide)⟩

/-- C3 fails as stated: the nil map is a `params` map without the key `image`,
and on it `CreateMachine` does not return "image param required": it panics
at the write of the region, which comes before the check. -/
theorem CreateMachine_nil_params_panics :
    Params.nil.get "image" = none ∧
    CreateMachine stuckEnv NewEC2IaaS .nil startWorld = .panicked nilMapWrite :=
  ⟨rfl, rfl⟩

/-- C4: whenever `CreateMachine` returns, with a machine or with an error: if
`params` had no region the map is afterwards the original plus the entry
region = "us-east-1" and every provider call of the run went through a client
for "us-east-1"; if `params` had a region the map is unchanged and every
provider call went through a client for that region.  It does return when
`params` is allocated and the instances of the provider carry an id and a
state. -/
theorem CreateMachine_region (env : Env) (i : EC2IaaS) (params : Params) (w : World) :
    (∀ r, CreateMachine env i params w = .returned r →
      (params.get "region" = none →
        params.set "region" "us-east-1" = some r.params ∧
        ∀ e ∈ newEvents w r.world, ∀ c, e.client? = some c → c.region = "us-east-1") ∧
      (∀ region, params.get "region" = some region →
        r.params = params ∧
        ∀ e ∈ newEvents w r.world, ∀ c, e.client? = some c → c.region = region)) ∧
    (∀ entries, params = .allocated entries → instancesCarryIdAndState env →
      ∃ r, CreateMachine env i params w = .returned r) := by
  constructor
  · intro r hr
    cases params with
    | nil => rw [CreateMachine_nil] at hr; cases hr
    | allocated m =>
      obtain ⟨hp, hev, _⟩ := CreateMachine_events env i m w r hr
      constructor
      · intro h
        simp only [Params.get] at h
        refine ⟨by rw [hp]; simp [Params.set, resolveEntries, h, defaultRegion], ?_⟩
        intro e he c hc
        rw [hev e he c hc]
        simp [launchClient, handlerFor, resolvedRegion, Params.get, h, defaultRegion]
      · intro region h
        simp only [Params.get] at h
        refine ⟨by rw [hp]; simp [resolveEntries, h], ?_⟩
        intro e he c hc
        rw [hev e he c hc]
        simp [launchClient, handlerFor, resolvedRegion, Params.get, h]
  · rintro entries rfl hwf
    exact CreateMachine_returns env i entries w hwf

/-- The default-region test, and the same run with a region of its own. -/
theorem CreateMachine_region_witness :
    (∃ r, CreateMachine readyEnv NewEC2IaaS defaultRegionParams startWorld = .returned r ∧
      defaultRegionParams.set "region" "us-east-1" = some r.params ∧
      ∀ e ∈ newEvents startWorld r.world, ∀ c, e.client? = some c → c.region = "us-east-1") ∧
    (∃ r, CreateMachine readyEnv NewEC2IaaS regionParams startWorld = .returned r ∧
      r.params = regionParams ∧
      ∀ e ∈ newEvents startWorld r.world, ∀ c, e.client? = some c → c.region = "myregion") := by
  have hwf : instancesCarryIdAndState readyEnv :=
    ⟨fun _ _ _ _ _ _ h1 h2 => by cases h1; cases h2; exact ⟨⟨_, rfl⟩, ⟨_, rfl⟩⟩,
     fun _ _ _ _ h1 => by cases h1⟩
  constructor
  · obtain ⟨h1, h2⟩ := CreateMachine_region readyEnv NewEC2IaaS defaultRegionParams startWorld
    obtain ⟨r, hr⟩ := h2 defaultRegionEntries rfl hwf
    exact ⟨r, hr, ((h1 r hr).1 (by decide)).1, ((h1 r hr).1 (by decide)).2⟩
  · obtain ⟨h1, h2⟩ := CreateMachine_region readyEnv NewEC2IaaS regionParams startWorld
    obtain ⟨r, hr⟩ := h2 regionEntries rfl hwf
    exact ⟨r, hr, ((h1 r hr).2 "myregion" (by decide)).1, ((h1 r hr).2 "myregion" (by decide)).2⟩

/-- C5: without a region in `m.CreationParams`, `DeleteMachine` returns the
error "region creation param required" and leaves the world as it was (no
lookup, no provider call); with a region and both credentials configured it
makes, after the three credential lookups, exactly one provider call, a
terminate request for `[m.Id]` through a client for that region, and returns
the error of that call (none when the provider accepts it). -/
theorem DeleteMachine_spec (env : Env) (i : EC2IaaS) (m : Machine) (w : World) :
    (m.CreationParams.get "region" = none →
      DeleteMachine env i m w = (some "region creation param required", w)) ∧
    (∀ region, m.CreationParams.get "region" = some region → credentialsConfigured env i w →
      (DeleteMachine env i m w).1
        = env.TerminateInstances (handlerFor env i region w) (afterCreds i w) ⟨[m.Id]⟩ ∧
      (handlerFor env i region w).region = region ∧
      newEvents w (DeleteMachine env i m w).2
        = [.getConfigString i.base "key-id", .getConfigString i.base "secret-key",
           .getConfigString i.base "security-token",
           .terminateInstances (handlerFor env i region w) ⟨[m.Id]⟩] ∧
      (newEvents w (DeleteMachine env i m w).2).filter Event.isProviderAction
        = [.terminateInstances (handlerFor env i region w) ⟨[m.Id]⟩]) := by
  constructor
  · intro h
    simp [DeleteMachine, h]
  · intro region h hc
    have hd : DeleteMachine env i m w
        = (env.TerminateInstances (handlerFor env i region w) (afterCreds i w) ⟨[m.Id]⟩,
           (afterCreds i w).record
            (.terminateInstances (handlerFor env i region w) ⟨[m.Id]⟩)) := by
      simp only [DeleteMachine, h, createEC2Handler_ok env i region w hc]
    have hlog : ((afterCreds i w).record
        (.terminateInstances (handlerFor env i region w) ⟨[m.Id]⟩)).log
        = w.log ++ [.getConfigString i.base "key-id", .getConfigString i.base "secret-key",
           .getConfigString i.base "security-token",
           .terminateInstances (handlerFor env i region w) ⟨[m.Id]⟩] := by
      simp [World.record, afterCreds]
    rw [hd]
    refine ⟨rfl, rfl, newEvents_append _ _ _ hlog, ?_⟩
    rw [newEvents_append _ _ _ hlog]
    simp [List.filter, Event.isProviderAction]

/-- The two delete tests, and a delete the provider refuses. -/
theorem DeleteMachine_spec_witness :
    DeleteMachine readyEnv NewEC2IaaS ⟨"i-1", "", "", .nil⟩ startWorld
      = (some "region creation param required", startWorld) ∧
    (DeleteMachine readyEnv NewEC2IaaS ⟨"i-1", "", "", regionParams⟩ startWorld).1 = none ∧
    (DeleteMachine stuckEnv NewEC2IaaS ⟨"i-1", "", "", regionParams⟩ startWorld).1
      = some "InvalidInstanceID.NotFound" ∧
    (newEvents startWorld
        (DeleteMachine readyEnv NewEC2IaaS ⟨"i-1", "", "", regionParams⟩ startWorld).2).filter
      Event.isProviderAction
      = [.terminateInstances (handlerFor readyEnv NewEC2IaaS "myregion" startWorld) ⟨["i-1"]⟩] :=
  ⟨(DeleteMachine_spec readyEnv NewEC2IaaS ⟨"i-1", "", "", .nil⟩ startWorld).1 rfl,
   ((DeleteMachine_spec readyEnv NewEC2IaaS ⟨"i-1", "", "", regionParams⟩ startWorld).2
      "myregion" rfl ⟨⟨"mykey", rfl⟩, ⟨"mysecret", rfl⟩⟩).1,
   ((DeleteMachine_spec stuckEnv NewEC2IaaS ⟨"i-1", "", "", regionParams⟩ startWorld).2
      "myregion" rfl ⟨⟨"mykey", rfl⟩, ⟨"mysecret", rfl⟩⟩).1,
   ((DeleteMachine_spec readyEnv NewEC2IaaS ⟨"i-1", "", "", regionParams⟩ startWorld).2
      "myregion" rfl ⟨⟨"mykey", rfl⟩, ⟨"mysecret", rfl⟩⟩).2.2.2⟩


/-- C8: for a receiver `p` that points at an `EC2IaaS` value `v`, `Clone`
returns a pointer to a new value, different from `p`, whose `IaaSName` is
`name` and whose `BaseIaaSName` is that of `v`; every value that was in memory,
the receiver included, is unchanged, so the receiver keeps its `IaaSName`. -/
theorem Clone_spec (heap : Heap) (p : Nat) (name : String) (v : EC2IaaS)
    (hv : heap[p]? = some v) :
    ∃ q heap', Clone heap p name = some (q, heap') ∧ q ≠ p ∧
      heap'[q]? = some ⟨⟨⟨v.base.NamedIaaS.BaseIaaSName, name⟩⟩⟩ ∧
      heap'[p]? = some v ∧
      ∀ k, k < heap.length → heap'[k]? = heap[k]? := by
  have hp : p < heap.length := by
    by_contra hge
    rw [List.getElem?_eq_none (by omega)] at hv
    cases hv
  refine ⟨heap.length, heap ++ [⟨⟨⟨v.base.NamedIaaS.BaseIaaSName, name⟩⟩⟩], ?_, by omega, ?_, ?_, ?_⟩
  · simp [Clone, hv]
  · simp
  · rw [List.getElem?_append_left hp]; exact hv
  · intro k hk
    rw [List.getElem?_append_left hk]

/-- The clone test: `NewEC2IaaS` cloned as "something". -/
theorem Clone_spec_witness :
    ∃ q heap', Clone [NewEC2IaaS] 0 "something" = some (q, heap') ∧ q ≠ 0 ∧
      heap'[q]? = some ⟨⟨⟨"ec2", "something"⟩⟩⟩ ∧
      heap'[0]? = some NewEC2IaaS ∧
      ∀ k, k < [NewEC2IaaS].length → heap'[k]? = [NewEC2IaaS][k]? :=
  Clone_spec [NewEC2IaaS] 0 "something" NewEC2IaaS rfl


/-- C9, as the code has it: with a wait-timeout that `Atoi` reads as `T ≥ 1`
and a provider that answers every describe call with one instance of the same
id and no address, `waitForDnsName` returns the time-out error naming the
instance after `n ≤ 2T+1` describe calls.  For `T ≤ 9223372036` and exact
sleeps of 500 ms, `n = 2T+1` and the clock has moved by `(2T+1) * 500 ms`; when
every sleep overshoots, `n ≤ 2T`.  A pass of the loop in which the elapsed time
equals the bound does not time out: it makes its describe call. -/
theorem waitForDnsName_never_ready (env : Env) (i : EC2IaaS) (h : EC2) (inst : Instance)
    (w : World) (T : Nat) (id : String) (hT : 1 ≤ T)
    (hcfg : ∀ v, Atoi (valueOrZero (env.GetConfigString i.base v "wait-timeout")) = (T : Int))
    (hid : inst.InstanceID = some id)
    (hm : addressMissing inst = true) (hnr : neverReady env h id) :
    ∃ w' n, waitForDnsName env i h inst w = .returned (.error (timeoutError id), w') ∧
      describeCount w' = describeCount w + n ∧ n ≤ 2 * T + 1 ∧
      (T ≤ 9223372036 → (∀ v, env.oversleep v = 0) →
        n = 2 * T + 1 ∧ w'.clock = w.clock + (2 * T + 1) * pollInterval) ∧
      ((∀ v, 1 ≤ env.oversleep v) → n ≤ 2 * T) ∧
      (∀ t0 v, elapsed t0 (afterConfig i v) = configuredBound env i v →
        ∃ d, pollStep env i h t0 v inst = .again d (afterDescribe env i h id v)) := by
  obtain ⟨res, w', hw⟩ := waitForDnsName_returns env i h inst w
    (fun before req d hd => by
      obtain ⟨d', hd', hid', _⟩ := hnr before req
      rw [hd'] at hd
      simp only [firstInstance, Option.some.injEq] at hd
      subst hd
      exact ⟨id, hid'⟩) ⟨id, hid⟩
  have hw' : waitLoop env i h w.clock pollFuel w inst = .returned (res, w') := hw
  obtain ⟨hB, hB1, hB2⟩ := configuredBound_of_Atoi env i T hT hcfg
  generalize wrapInt64 ((T : Int) * 1000000000) = B at hB hB1 hB2
  obtain ⟨hres, n, hn, hclk, hle, hgt⟩ :=
    waitLoop_neverReady_upper env i h w.clock id B 0 hB hnr (fun _ => Nat.zero_le _)
      pollFuel w inst res w' hid hm (le_refl _) hw'
  subst hres
  simp only [pollInterval, Nat.add_zero, Nat.sub_self] at hclk hle hgt
  refine ⟨w', n, hw, hn, ?_, ?_, ?_, ?_⟩
  · by_cases hpos : (0 : Int) ≤ B
    · have := hle (by simpa using hpos)
      omega
    · have := hgt (by simp only [Nat.cast_zero]; omega)
      omega
  · intro hT' hexact
    have hBT := hB2 hT'
    obtain ⟨n', hn', hclk', hlt⟩ :=
      waitLoop_neverReady_lower env i h w.clock id B 0 hB hnr
        (fun v => by rw [hexact v]) pollFuel w inst _ w' hid hm (le_refl _) hw'
    simp only [pollInterval, Nat.add_zero, Nat.sub_self] at hclk' hlt
    have hnn : n' = n := by omega
    subst hnn
    have h1 := hle (by simp only [Nat.cast_zero]; omega)
    have h2 := hlt (by simp only [Nat.cast_zero]; omega)
    simp only [pollInterval]
    constructor <;> omega
  · intro hover
    obtain ⟨_, n', hn', _, hle', hgt'⟩ :=
      waitLoop_neverReady_upper env i h w.clock id B 1 hB hnr hover
        pollFuel w inst _ w' hid hm (le_refl _) hw'
    simp only [pollInterval, Nat.sub_self] at hle' hgt'
    have hnn : n' = n := by omega
    subst hnn
    by_cases hpos : (0 : Int) ≤ B
    · have := hle' (by simpa using hpos)
      omega
    · have := hgt' (by simp only [Nat.cast_zero]; omega)
      omega
  · intro t0 v heq
    rcases pollStep_neverReady env i h t0 v inst id hnr hid hm with ⟨hto, _⟩ | ⟨_, d, _, _, hs⟩
    · have := (elapsed_gt_configuredBound env i t0 v).2 hto
      omega
    · exact ⟨d, hs⟩

/-- The timeout test: three describe calls and 1.5 s for one second, and a
pass at exactly one second that goes on to describe. -/
theorem waitForDnsName_never_ready_witness :
    (∃ w' n, waitForDnsName stuckEnv NewEC2IaaS
        (launchClient stuckEnv NewEC2IaaS regionParams startWorld)
        (pendingInstance "i-1" none) startWorld
        = .returned (.error (timeoutError "i-1"), w') ∧
      describeCount w' = describeCount startWorld + n ∧ n = 2 * 1 + 1 ∧
      w'.clock = startWorld.clock + (2 * 1 + 1) * pollInterval) ∧
    (∃ d, pollStep stuckEnv NewEC2IaaS (launchClient stuckEnv NewEC2IaaS regionParams startWorld)
        0 ⟨1000000000, []⟩ (pendingInstance "i-1" none)
      = .again d (afterDescribe stuckEnv NewEC2IaaS
          (launchClient stuckEnv NewEC2IaaS regionParams startWorld) "i-1"
          ⟨1000000000, []⟩)) :=
  let ⟨w', n, h1, h2, _, h4, _, h6⟩ :=
    waitForDnsName_never_ready stuckEnv NewEC2IaaS
      (launchClient stuckEnv NewEC2IaaS regionParams startWorld)
      (pendingInstance "i-1" none) startWorld 1 "i-1" (by decide) (fun _ => rfl) rfl rfl
      (fun _ _ => ⟨pendingInstance "i-1" none, rfl, rfl, rfl⟩)
  ⟨⟨w', n, h1, h2, (h4 (by decide) (fun _ => rfl)).1, (h4 (by decide) (fun _ => rfl)).2⟩,
   h6 0 ⟨1000000000, []⟩ (by decide)⟩

/-- C9 fails as stated, in two ways.  With the wait-timeout "9223372037" and
exact sleeps of 500 ms the poller times out at once, after no describe call
and no sleep, not after `2T+1` calls: the bound has wrapped.  With the
wait-timeout "1" and sleeps of 500, 500 and 700 ms the poller makes exactly
`2T+1 = 3` describe calls (the clock ends at 1.7 s) although the clock did not
advance by exactly 500 ms on every sleep. -/
theorem describe_calls_not_as_claimed :
    (Atoi "9223372037" = 9223372037 ∧
     pollSummary (waitForDnsName (neverReadyEnv "9223372037" (fun _ => 0)) NewEC2IaaS
        (launchClient stuckEnv NewEC2IaaS regionParams startWorld) (pendingInstance "i-1" none)
        startWorld)
      = some (.error (timeoutError "i-1"), 0, 0)) ∧
    (Atoi "1" = 1 ∧
     lateSleep ⟨1000000000,
        [.describeInstances (launchClient stuckEnv NewEC2IaaS regionParams startWorld) ⟨["i-1"]⟩,
         .describeInstances (launchClient stuckEnv NewEC2IaaS regionParams startWorld)
          ⟨["i-1"]⟩]⟩ = 200000000 ∧
     pollSummary (waitForDnsName (neverReadyEnv "1" lateSleep) NewEC2IaaS
        (launchClient stuckEnv NewEC2IaaS regionParams startWorld) (pendingInstance "i-1" none)
        startWorld)
      = some (.error (timeoutError "i-1"), 3, 1700000000)) := by
  refine ⟨⟨by decide, by rfl⟩, by decide, by decide, by rfl⟩

/-- C10, as the code has it: in every pass through the loop of the poller the
elapsed time is compared with `configuredBound`, the pass ending in the
time-out error exactly when the elapsed time is greater.  That bound is 300
seconds when the wait-timeout is absent, is not a number, or is zero; it is the
configured number of seconds when that number is not zero and lies between
-9223372036 and 9223372036. -/
theorem configuredBound_spec (env : Env) (i : EC2IaaS) (h : EC2) (t0 : Nat) (w : World)
    (inst : Instance) (id : String) (hid : inst.InstanceID = some id)
    (hm : addressMissing inst = true) :
    (pollStep env i h t0 w inst = .done (.error (timeoutError id)) (afterConfig i w) ↔
      elapsed t0 (afterConfig i w) > configuredBound env i w) ∧
    ((∀ raw, env.GetConfigString i.base w "wait-timeout" ≠ .ok raw) →
      configuredBound env i w = 300 * Second) ∧
    (∀ raw, env.GetConfigString i.base w "wait-timeout" = .ok raw →
      (numericValue raw = none → configuredBound env i w = 300 * Second) ∧
      (numericValue raw = some 0 → configuredBound env i w = 300 * Second) ∧
      (∀ v, numericValue raw = some v → v ≠ 0 → -9223372036 ≤ v → v ≤ 9223372036 →
        configuredBound env i w = v * Second)) := by
  refine ⟨?_, ?_, ?_⟩
  · have hne : afterDescribe env i h id w ≠ afterConfig i w := by
      intro hh
      have := congrArg (fun x => x.log.length) hh
      simp [afterDescribe_log, afterConfig_log] at this
    rcases pollStep_cases env i h t0 w inst with ⟨hm', _⟩ | ⟨_, hnil, _⟩ | ⟨id', _, hid', hto, hs⟩ |
      ⟨id', _, hid', hto, _, err, hs⟩ | ⟨id', _, hid', hto, d, _, hs⟩
    · rw [hm] at hm'; cases hm'
    · rw [hid] at hnil; cases hnil
    · rw [hid] at hid'; cases hid'
      exact ⟨fun _ => hto, fun _ => hs⟩
    · rw [hid] at hid'; cases hid'
      constructor
      · intro hh
        rw [hs] at hh
        simp only [PollStep.done.injEq] at hh
        exact absurd hh.2 hne
      · intro hh; exact absurd hh hto
    · rw [hid] at hid'; cases hid'
      constructor
      · intro hh
        rw [hs] at hh
        cases hh
      · intro hh; exact absurd hh hto
  · intro habs
    cases hr : env.GetConfigString i.base w "wait-timeout" with
    | ok raw => exact absurd hr (habs raw)
    | error e =>
      simp only [configuredBound, hr, valueOrZero]
      decide
  · intro raw hr
    simp only [configuredBound, hr, valueOrZero, timeoutBound, maxWaitTime, Atoi]
    refine ⟨?_, ?_, ?_⟩
    · intro hn
      simp only [hn]
      decide
    · intro hn
      simp only [hn]
      decide
    · intro v hn hv hlo hhi
      simp only [hn, maxInt64, minInt64, wrapInt64, Second]
      have h1 : ¬ v > 9223372036854775807 := by omega
      have h2 : ¬ v < -9223372036854775808 := by omega
      simp only [h1, h2, if_false, hv]
      omega

/-- The bound is one second for "1" and 300 seconds without the key. -/
theorem configuredBound_spec_witness :
    configuredBound stuckEnv NewEC2IaaS startWorld = 1 * Second ∧
    configuredBound readyEnv NewEC2IaaS startWorld = 300 * Second :=
  ⟨((configuredBound_spec stuckEnv NewEC2IaaS
      (launchClient stuckEnv NewEC2IaaS regionParams startWorld) 0
      startWorld (pendingInstance "i-1" none) "i-1" rfl rfl).2.2 "1" rfl).2.2 1 rfl (by decide)
      (by decide) (by decide),
   (configuredBound_spec readyEnv NewEC2IaaS
      (launchClient readyEnv NewEC2IaaS regionParams startWorld) 0
      startWorld (pendingInstance "i-1" none) "i-1" rfl rfl).2.1 (fun raw hraw => by cases hraw)⟩

/-- C10 fails as stated: the wait-timeout "9223372037" is a number, not zero,
yet the bound compared is not 9223372037 seconds: the 64 bit product wraps to
-9223372036709551616 nanoseconds, and the first pass of the loop, with no time
elapsed, already ends in the time-out error. -/
theorem configuredBound_wraps :
    numericValue "9223372037" = some 9223372037 ∧
    configuredBound (neverReadyEnv "9223372037" (fun _ => 0)) NewEC2IaaS startWorld
      = -9223372036709551616 ∧
    configuredBound (neverReadyEnv "9223372037" (fun _ => 0)) NewEC2IaaS startWorld
      ≠ 9223372037 * Second ∧
    pollStep (neverReadyEnv "9223372037" (fun _ => 0)) NewEC2IaaS
        (launchClient stuckEnv NewEC2IaaS regionParams startWorld) 0 startWorld
        (pendingInstance "i-1" none)
      = .done (.error (timeoutError "i-1")) (afterConfig NewEC2IaaS startWorld) := by
  refine ⟨by decide, by decide, by decide, by rfl⟩


end Tsuru
